import Mathlib

/-
Verification of the path-resolution and configuration-parsing code of the
ngs_utils repository (scwatts/ngs_utils), a collection of convenience
utilities for locating and interpreting the on-disk output of the bcbio
genomics pipeline.

The embedding is shallow: each Python function of the repository is
translated into an executable Lean function over an abstract filesystem
(predicates saying which paths are files and which are directories).
Python control flow that can leave a function abnormally is made explicit
with the `Res` result type below: `Res.ok` models a normal return,
`Res.critical` models a call to logger.critical (which terminates the
process), and `Res.raised` models an uncaught Python exception, recorded
by its class name.

Helper functions imported from modules of the repository that are outside
the sources under verification (ngs_utils.file_utils, ngs_utils.logger,
Utils.file_utils) are modelled from the specification; each such
definition carries a doc comment saying so.
-/

set_option autoImplicit false

namespace NgsUtils

/-- Result of running a piece of Python code: a normal return value, a
terminating call to logger.critical with its message, or an uncaught
Python exception recorded by its class name. -/
inductive Res (α : Type) where
  | ok : α → Res α
  | critical : String → Res α
  | raised : String → Res α
deriving Repr, DecidableEq

/-- Sequencing of effectful steps: propagate critical exits and exceptions. -/
def Res.bind {α β : Type} : Res α → (α → Res β) → Res β
  | Res.ok a, f => f a
  | Res.critical m, _ => Res.critical m
  | Res.raised m, _ => Res.raised m

instance : Monad Res where
  pure := Res.ok
  bind := Res.bind

/-- Abstract filesystem: which absolute paths are regular files, and which
are directories.  Paths are plain strings, as in the Python code. -/
structure FS where
  isfile : String → Bool
  isdir : String → Bool

/-- Python os.path.join for an absolute head and a relative tail. -/
def pyJoin (a b : String) : String := a ++ "/" ++ b

/-- Python `x or y` for a possibly-absent string `x`: `y` when `x` is None
or the empty string (both falsy), `x` otherwise. -/
def pyOrStr (x : Option String) (y : String) : String :=
  match x with
  | none => y
  | some s => if s = "" then y else s

/-- Modelled from the spec: adjust_path from ngs_utils.file_utils (not under
src/) normalizes a path; on the absolute, already-normalized paths built by
this code it is the identity. -/
def adjust_path (p : String) : String := p

/-- Modelled from the spec: verify_file from ngs_utils.file_utils (not under
src/).  The spec describes the resolution cascade as a flat sequence of
existence checks, so verification of a path succeeds exactly when the path
exists as a file; the function returns the path on success and None
otherwise (logging, or terminating, on failure is not observable here). -/
def verify_file (fs : FS) (path : String) : Option String :=
  if fs.isfile path then some path else none

/-- Modelled from the spec: verify_dir from ngs_utils.file_utils (not under
src/): returns the path when it is a non-empty string naming an existing
directory, None otherwise (in Python the argument may also be None). -/
def verify_dir (fs : FS) (path : Option String) : Option String :=
  match path with
  | none => none
  | some p => if p = "" then none else if fs.isdir p then some p else none

/-- Directory-layout fields of a BcbioProject object that the file-resolution
cascades read (bcbio.py, BcbioProject.__init__ / set_project_level_dirs). -/
structure BcbioProject where
  config_dir : String
  final_dir : String
  date_dir : String
  work_dir : String
  var_dir : String
  raw_var_dir : String
  somatic_caller : String
  germline_caller : String

/-- Translation of BcbioProject.find_vcf_file (bcbio.py lines 675-750): the
ordered cascade of candidate VCF locations for a batch in the datestamp
directory.  Logging is dropped; each `verify_file(p, is_critical=True)` call
guarded by `isfile(p)` always succeeds under the spec model of verify_file,
so the function returns the first existing candidate, or None. -/
def BcbioProject.find_vcf_file (fs : FS) (p : BcbioProject) (batch_name : String)
    (_silent : Bool) (caller : Option String) : Option String :=
  let caller := pyOrStr caller p.somatic_caller
  let vcf_fname := batch_name ++ "-" ++ caller ++ ".vcf"
  let annot_vcf_fname := batch_name ++ "-" ++ caller ++ "-annotated.vcf"
  let vcf_annot_fpath_gz := adjust_path (pyJoin p.date_dir (annot_vcf_fname ++ ".gz"))
  let var_raw_vcf_annot_fpath_gz := adjust_path (pyJoin p.raw_var_dir (annot_vcf_fname ++ ".gz"))
  let vcf_fpath_gz := adjust_path (pyJoin p.date_dir (vcf_fname ++ ".gz"))
  let var_vcf_fpath_gz := adjust_path (pyJoin p.var_dir (vcf_fname ++ ".gz"))
  let var_raw_vcf_fpath_gz := adjust_path (pyJoin p.raw_var_dir (vcf_fname ++ ".gz"))
  let vcf_fpath := adjust_path (pyJoin p.date_dir vcf_fname)
  let var_vcf_fpath := adjust_path (pyJoin p.var_dir vcf_fname)
  let var_raw_vcf_fpath := adjust_path (pyJoin p.raw_var_dir vcf_fname)
  if fs.isfile vcf_annot_fpath_gz then some vcf_annot_fpath_gz
  else if fs.isfile var_raw_vcf_annot_fpath_gz then some var_raw_vcf_annot_fpath_gz
  else if fs.isfile vcf_fpath_gz then some vcf_fpath_gz
  else if fs.isfile var_raw_vcf_fpath_gz then some var_raw_vcf_fpath_gz
  else if fs.isfile vcf_fpath then some vcf_fpath
  else if fs.isfile var_raw_vcf_fpath then some var_raw_vcf_fpath
  else if fs.isfile var_vcf_fpath_gz then some var_vcf_fpath_gz
  else if fs.isfile var_vcf_fpath then some var_vcf_fpath
  else none

/-- Candidate list exactly as the claim words it: annotated .vcf.gz in the
datestamp dir, annotated .vcf.gz in datestamp/var/raw, plain .vcf.gz in the
datestamp dir, plain .vcf.gz in datestamp/var/raw, uncompressed .vcf in the
datestamp dir, uncompressed .vcf in datestamp/var/raw, .vcf.gz in
datestamp/var, uncompressed .vcf in datestamp/var. -/
def vcfCandidates (date_dir batch_name caller : String) : List String :=
  [ pyJoin date_dir (batch_name ++ "-" ++ caller ++ "-annotated.vcf.gz"),
    pyJoin (pyJoin (pyJoin date_dir "var") "raw") (batch_name ++ "-" ++ caller ++ "-annotated.vcf.gz"),
    pyJoin date_dir (batch_name ++ "-" ++ caller ++ ".vcf.gz"),
    pyJoin (pyJoin (pyJoin date_dir "var") "raw") (batch_name ++ "-" ++ caller ++ ".vcf.gz"),
    pyJoin date_dir (batch_name ++ "-" ++ caller ++ ".vcf"),
    pyJoin (pyJoin (pyJoin date_dir "var") "raw") (batch_name ++ "-" ++ caller ++ ".vcf"),
    pyJoin (pyJoin date_dir "var") (batch_name ++ "-" ++ caller ++ ".vcf.gz"),
    pyJoin (pyJoin date_dir "var") (batch_name ++ "-" ++ caller ++ ".vcf") ]

/-- C1: for every batch name and caller, BcbioProject.find_vcf_file checks its
fixed ordered list of candidate VCF paths and returns the first candidate
that exists as a file; if no candidate exists it returns None, and once an
earlier candidate exists no later candidate is consulted (all three read
off from List.find? over the candidate list).  The two hypotheses record
how set_project_level_dirs (bcbio.py lines 470-471) lays out the var and
var/raw directories inside the datestamp directory. -/
theorem find_vcf_file_is_first_existing_candidate
    (fs : FS) (p : BcbioProject) (bn : String) (silent : Bool) (caller : Option String)
    (hv : p.var_dir = pyJoin p.date_dir "var")
    (hr : p.raw_var_dir = pyJoin p.var_dir "raw") :
    p.find_vcf_file fs bn silent caller =
      (vcfCandidates p.date_dir bn (pyOrStr caller p.somatic_caller)).find? fs.isfile := by
  obtain ⟨cd, fd, dd, wd, vd, rvd, sc, gc⟩ := p
  simp only at hv hr
  subst hr
  subst hv
  simp only [BcbioProject.find_vcf_file, vcfCandidates, adjust_path, pyJoin,
    List.find?, String.append_assoc]
  repeat' split <;> simp_all

/-- Witness for C1 at a concrete project and filesystem: with only the
plain .vcf.gz present in the datestamp dir, the cascade returns it. -/
theorem find_vcf_file_is_first_existing_candidate_witness :
    let p : BcbioProject :=
      { config_dir := "/proj/config", final_dir := "/proj/final",
        date_dir := "/proj/final/2020-01-01_project", work_dir := "/proj/work",
        var_dir := "/proj/final/2020-01-01_project/var",
        raw_var_dir := "/proj/final/2020-01-01_project/var/raw",
        somatic_caller := "ensemble", germline_caller := "ensemble" }
    let fs : FS :=
      { isfile := fun q => q = "/proj/final/2020-01-01_project/b1-ensemble.vcf.gz",
        isdir := fun _ => false }
    p.find_vcf_file fs "b1" false none =
      (vcfCandidates p.date_dir "b1" (pyOrStr none p.somatic_caller)).find? fs.isfile := by
  intro p fs
  exact find_vcf_file_is_first_existing_candidate fs p "b1" false none (by rfl) (by rfl)

/-- Fields of a BcbioSample object read by the file-resolution cascades
(bcbio.py, BcbioSample.__init__ and the loaders below).  Fields that
Python initializes to None and fills in later are Options. -/
structure BcbioSample where
  name : Option String
  old_name : Option String
  raw_name : Option String
  dirpath : Option String
  phenotype : String
  batch : Option String
  batch_names : List String
  bam : Option String
  genome_build : String
  variant_regions_bed : Option String
  sv_regions_bed : Option String
  coverage_bed : Option String
  is_rnaseq : Bool
  coverage_interval : String
  is_wgs : Bool
  counts_file : Option String
  files : Sum String (List String)
deriving Repr, DecidableEq

/-- Translation of BcbioSample.get_name_for_files (bcbio.py line 47):
`self.old_name or self.name` with Python truthiness (None and the empty
string are falsy). -/
def BcbioSample.get_name_for_files (s : BcbioSample) : Option String :=
  match s.old_name with
  | some o => if o = "" then s.name else some o
  | none => s.name

/-- Translation of BcbioProject.find_vcf_file_from_sample_dir (bcbio.py
lines 752-810): the ordered cascade of candidate VCF locations inside the
directory of a sample.  When the sample object has no name or no dirpath
yet (both None), the Python string concatenations raise TypeError. -/
def BcbioProject.find_vcf_file_from_sample_dir (fs : FS) (p : BcbioProject)
    (sample : BcbioSample) (_silent : Bool) (caller : Option String) : Res (Option String) :=
  let caller := pyOrStr caller p.somatic_caller
  match sample.get_name_for_files, sample.dirpath with
  | some name, some dirpath =>
    let vcf_fname := name ++ "-" ++ caller ++ ".vcf"
    let sample_var_dirpath := pyJoin dirpath "var"
    let vcf_fpath_gz := adjust_path (pyJoin dirpath (vcf_fname ++ ".gz"))
    let var_vcf_fpath_gz := adjust_path (pyJoin sample_var_dirpath (vcf_fname ++ ".gz"))
    let var_raw_vcf_fpath_gz := adjust_path (pyJoin (pyJoin sample_var_dirpath "raw") (vcf_fname ++ ".gz"))
    let vcf_fpath := adjust_path (pyJoin dirpath vcf_fname)
    let var_vcf_fpath := adjust_path (pyJoin sample_var_dirpath vcf_fname)
    let var_raw_vcf_fpath := adjust_path (pyJoin (pyJoin sample_var_dirpath "raw") vcf_fname)
    if fs.isfile vcf_fpath_gz then .ok (some vcf_fpath_gz)
    else if fs.isfile var_vcf_fpath_gz then .ok (some var_vcf_fpath_gz)
    else if fs.isfile var_raw_vcf_fpath_gz then .ok (some var_raw_vcf_fpath_gz)
    else if fs.isfile vcf_fpath then .ok (some vcf_fpath)
    else if fs.isfile var_vcf_fpath then .ok (some var_vcf_fpath)
    else if fs.isfile var_raw_vcf_fpath then .ok (some var_raw_vcf_fpath)
    else .ok none
  | _, _ => .raised "TypeError"

/-- Translation of BcbioSample.find_raw_vcf (bcbio.py lines 246-258): batch
stage in the datestamp directory only for batched non-normal samples, then
fallback to the sample-directory cascade whenever the first stage produced
nothing. -/
def BcbioSample.find_raw_vcf (fs : FS) (p : BcbioProject) (s : BcbioSample)
    (silent : Bool) (caller : Option String) : Res (Option String) :=
  let caller := pyOrStr caller p.somatic_caller
  let vcf_fpath : Option String :=
    if s.batch.isSome && s.phenotype != "normal" then
      match s.batch with
      | some bname => p.find_vcf_file fs bname silent (some caller)
      | none => none
    else none
  match vcf_fpath with
  | some v => .ok (some v)
  | none =>
    p.find_vcf_file_from_sample_dir fs s (silent || s.phenotype == "normal") (some caller)

/-- Candidate list of the sample-directory cascade in the order the code
tries them: .vcf.gz in the sample dir, in its var dir, in its var/raw dir,
then the uncompressed .vcf in the same three places. -/
def sampleVcfCandidates (dirpath name caller : String) : List String :=
  [ pyJoin dirpath (name ++ "-" ++ caller ++ ".vcf.gz"),
    pyJoin (pyJoin dirpath "var") (name ++ "-" ++ caller ++ ".vcf.gz"),
    pyJoin (pyJoin (pyJoin dirpath "var") "raw") (name ++ "-" ++ caller ++ ".vcf.gz"),
    pyJoin dirpath (name ++ "-" ++ caller ++ ".vcf"),
    pyJoin (pyJoin dirpath "var") (name ++ "-" ++ caller ++ ".vcf"),
    pyJoin (pyJoin (pyJoin dirpath "var") "raw") (name ++ "-" ++ caller ++ ".vcf") ]

theorem ngsFindAppend {α : Type} (q : α → Bool) (l₁ l₂ : List α) :
    (l₁ ++ l₂).find? q = ((l₁.find? q).rec (l₂.find? q) (fun a => some a)) := by
  induction l₁ with
  | nil => rfl
  | cons a l ih =>
    by_cases h : q a = true
    · simp [List.find?, h]
    · simp only [Bool.not_eq_true] at h
      simp [List.find?, h, ih]

/-- The sample-dir cascade is the first existing candidate of its list. -/
theorem find_vcf_file_from_sample_dir_cascade (fs : FS) (p : BcbioProject)
    (s : BcbioSample) (silent : Bool) (caller : Option String)
    (n d : String) (hn : s.get_name_for_files = some n) (hd : s.dirpath = some d) :
    p.find_vcf_file_from_sample_dir fs s silent caller =
      .ok ((sampleVcfCandidates d n (pyOrStr caller p.somatic_caller)).find? fs.isfile) := by
  simp only [BcbioProject.find_vcf_file_from_sample_dir, hn, hd, sampleVcfCandidates,
    adjust_path, pyJoin, List.find?, String.append_assoc]
  repeat' split <;> simp_all

/-- C2: BcbioSample.find_raw_vcf resolves a raw VCF in two stages: only when
the sample has a batch and its phenotype is not normal does it first try
the batch-level datestamp-directory cascade, and only if that stage yields
nothing does it fall back to the sample-directory cascade, so that across
both stages the 8 + 6 = 14 (approximately 15) ordered candidate locations
are tried in order with the first existing one returned, and None is
returned when every candidate is missing.  Hypotheses fix the var/raw
layout of the project and require the sample to be fully constructed
(name and directory set). -/
theorem find_raw_vcf_two_stage_cascade (fs : FS) (p : BcbioProject)
    (s : BcbioSample) (silent : Bool) (caller : Option String) (n d : String)
    (hv : p.var_dir = pyJoin p.date_dir "var")
    (hr : p.raw_var_dir = pyJoin p.var_dir "raw")
    (hn : s.get_name_for_files = some n) (hd : s.dirpath = some d) :
    (s.find_raw_vcf fs p silent caller =
      .ok (let c := pyOrStr caller p.somatic_caller
           match s.batch with
           | some bname =>
             if s.phenotype ≠ "normal" then
               (vcfCandidates p.date_dir bname c ++ sampleVcfCandidates d n c).find? fs.isfile
             else (sampleVcfCandidates d n c).find? fs.isfile
           | none => (sampleVcfCandidates d n c).find? fs.isfile)) ∧
    (∀ bname c, (vcfCandidates p.date_dir bname c ++ sampleVcfCandidates d n c).length = 14) := by
  refine ⟨?_, by intro bname c; rfl⟩
  have hcaller : pyOrStr (some (pyOrStr caller p.somatic_caller)) p.somatic_caller =
      pyOrStr caller p.somatic_caller := by
    unfold pyOrStr
    match caller with
    | none => simp
    | some c => by_cases h : c = "" <;> simp [h]
  unfold BcbioSample.find_raw_vcf
  match hb : s.batch with
  | some bname =>
    by_cases hph : s.phenotype = "normal"
    · simp only [hb, hph, Option.isSome_some, Bool.true_and, bne_self_eq_false]
      have := find_vcf_file_from_sample_dir_cascade fs p s (silent || true) (some (pyOrStr caller p.somatic_caller)) n d hn hd
      simp only [hph, BEq.refl, Bool.or_true] at this ⊢
      rw [this, hcaller]
      simp
    · have hbne : (s.phenotype != "normal") = true := by
        simp [bne_iff_ne, hph]
      simp only [hb, Option.isSome_some, Bool.true_and, hbne, ite_true]
      rw [find_vcf_file_is_first_existing_candidate fs p bname silent
        (some (pyOrStr caller p.somatic_caller)) hv hr, hcaller]
      rw [ngsFindAppend]
      match hfind : (vcfCandidates p.date_dir bname (pyOrStr caller p.somatic_caller)).find? fs.isfile with
      | some v => simp [hph]
      | none =>
        simp only []
        have hsil : (silent || s.phenotype == "normal") = silent := by
          simp [hph]
        rw [hsil]
        have := find_vcf_file_from_sample_dir_cascade fs p s silent (some (pyOrStr caller p.somatic_caller)) n d hn hd
        rw [this, hcaller]
        simp [hph]
  | none =>
    simp only [hb, Option.isSome_none, Bool.false_and, Bool.false_eq_true, if_false]
    have := find_vcf_file_from_sample_dir_cascade fs p s (silent || (s.phenotype == "normal")) (some (pyOrStr caller p.somatic_caller)) n d hn hd
    rw [this, hcaller]

/-- Witness for C2 at a concrete tumor sample with a batch, on a filesystem
holding only the uncompressed VCF in the sample var dir. -/
theorem find_raw_vcf_two_stage_cascade_witness :
    let p : BcbioProject :=
      { config_dir := "/proj/config", final_dir := "/proj/final",
        date_dir := "/proj/final/2020-01-01_project", work_dir := "/proj/work",
        var_dir := "/proj/final/2020-01-01_project/var",
        raw_var_dir := "/proj/final/2020-01-01_project/var/raw",
        somatic_caller := "ensemble", germline_caller := "ensemble" }
    let fs : FS :=
      { isfile := fun q => q = "/proj/final/s1/var/s1-ensemble.vcf",
        isdir := fun _ => false }
    let s : BcbioSample :=
      { name := some "s1", old_name := none, raw_name := some "s1",
        dirpath := some "/proj/final/s1", phenotype := "tumor",
        batch := some "b1", batch_names := ["b1"], bam := none,
        genome_build := "hg38", variant_regions_bed := none,
        sv_regions_bed := none, coverage_bed := none, is_rnaseq := false,
        coverage_interval := "genome", is_wgs := true, counts_file := none,
        files := Sum.inl "/data/s1_1.fq" }
    (s.find_raw_vcf fs p false none =
      .ok (let c := pyOrStr none p.somatic_caller
           match s.batch with
           | some bname =>
             if s.phenotype ≠ "normal" then
               (vcfCandidates p.date_dir bname c ++ sampleVcfCandidates "/proj/final/s1" "s1" c).find? fs.isfile
             else (sampleVcfCandidates "/proj/final/s1" "s1" c).find? fs.isfile
           | none => (sampleVcfCandidates "/proj/final/s1" "s1" c).find? fs.isfile)) ∧
    (∀ bname c, (vcfCandidates p.date_dir bname c ++ sampleVcfCandidates "/proj/final/s1" "s1" c).length = 14) := by
  intro p fs s
  exact find_raw_vcf_two_stage_cascade fs p s false none "s1" "/proj/final/s1"
    (by rfl) (by rfl) (by rfl) (by rfl)

/-! Bedtools wrapper (src/bedtools/ module init). -/

/-- Translation of bedtools.get_dirpath: the bundled bedtools2 directory
under the package directory (dirname of the module file, a parameter here). -/
def get_dirpath (pkg_dir : String) : String := pyJoin pkg_dir "bedtools2"

/-- Translation of bedtools.get_executable_path: the bundled executable. -/
def get_executable_path (pkg_dir : String) : String :=
  pyJoin (pyJoin (get_dirpath pkg_dir) "bin") "bedtools"

/-- Translation of bedtools.find_executable (src/bedtools lines 16-24).
file_exists and which come from Utils.file_utils (not under src/) and are
modelled from the spec as an existence predicate and the optional $PATH
lookup result.  When the bundled executable is missing but a bedtools is
on $PATH, the code only logs through err and still returns the bundled
path; it terminates critically only when both are missing. -/
def find_executable (fs : FS) (which_bedtools : Option String) (pkg_dir : String) : Res String :=
  let exec_fpath := get_executable_path pkg_dir
  if fs.isfile exec_fpath then .ok exec_fpath
  else
    match which_bedtools with
    | some _ => .ok exec_fpath
    | none => .critical ("Error: could not find BedTools executable at " ++ exec_fpath ++ " or in PATH")

/-- C9: find_executable returns the bundled executable path in every case in
which it returns at all, including the fallback case where the bundled
executable is missing but a bedtools is found on $PATH (the $PATH location
is only logged); it exits critically exactly when neither the bundled
executable nor one on $PATH exists. -/
theorem find_executable_always_returns_bundled_path
    (fs : FS) (w : Option String) (pkg_dir : String) :
    (∀ x, find_executable fs w pkg_dir = .ok x → x = get_executable_path pkg_dir) ∧
    ((∃ x, find_executable fs w pkg_dir = .ok x) ↔
      (fs.isfile (get_executable_path pkg_dir) = true ∨ w.isSome = true)) ∧
    ((∃ m, find_executable fs w pkg_dir = .critical m) ↔
      (fs.isfile (get_executable_path pkg_dir) = false ∧ w = none)) := by
  unfold find_executable
  by_cases h : fs.isfile (get_executable_path pkg_dir) = true
  · simp [h]
  · simp only [Bool.not_eq_true] at h
    match w with
    | some wp => simp [h]
    | none => simp [h]

/-- Witness for C9: with a missing bundled executable and a bedtools found
on $PATH, the bundled path is still the one returned. -/
theorem find_executable_always_returns_bundled_path_witness :
    let fs : FS := { isfile := fun _ => false, isdir := fun _ => false }
    find_executable fs (some "/usr/local/bin/bedtools") "/opt/pkg" =
      .ok "/opt/pkg/bedtools2/bin/bedtools" ∧
    "/opt/pkg/bedtools2/bin/bedtools" = get_executable_path "/opt/pkg" := by
  intro fs
  have h := find_executable_always_returns_bundled_path fs (some "/usr/local/bin/bedtools") "/opt/pkg"
  exact ⟨by rfl, h.1 "/opt/pkg/bedtools2/bin/bedtools" (by rfl)⟩

/-! Genome reference accessors (src/reference_data module init). -/

/-- Python truthiness of an optional string: None and the empty string are
falsy. -/
def pyTruthyOptStr : Option String → Bool
  | none => false
  | some s => s ≠ ""

/-- Splitting of a character list at every occurrence of a separator,
keeping empty fields, as Python str.split(sep) does. -/
def splitCharList (sep : Char) : List Char → List (List Char)
  | [] => [[]]
  | c :: cs =>
    if c = sep then [] :: splitCharList sep cs
    else
      match splitCharList sep cs with
      | h :: t => (c :: h) :: t
      | [] => [[c]]

/-- Python str.split with a one-character separator, stated over character
lists so that it reduces definitionally on literals. -/
def pySplitOnChar (sep : Char) (s : String) : List String :=
  (splitCharList sep s.data).map (fun l => String.mk l)


/-- Translation of reference_data.SUPPORTED_GENOMES. -/
def SUPPORTED_GENOMES : List String :=
  ["hg19", "hg19-noalt", "hg38", "hg38-noalt", "hg19-chr20"]

/-- Translation of reference_data.check_genome: critical exit when the
genome is not supported, silent pass otherwise. -/
def check_genome (genome : String) : Res Unit :=
  if SUPPORTED_GENOMES.contains genome then .ok ()
  else .critical ("Genome " ++ genome ++ " is not supported. Supported genomes: " ++
    ", ".intercalate SUPPORTED_GENOMES)

/-- Translation of reference_data._get: check the genome, then build the
path under the package directory (dirname of the module file, a parameter
here; abspath is the identity on it).  The str.format substitution of the
genome name into the path is performed by the callers below. -/
def refdata_get (pkg_dir genome path : String) : Res String :=
  Res.bind (check_genome genome) (fun _ => .ok (pyJoin pkg_dir path))

/-- Translation of reference_data.get_fai: resolves fai/{genome}.fa.fai via
_get. -/
def get_fai (pkg_dir genome : String) : Res String :=
  refdata_get pkg_dir genome (pyJoin "fai" (genome ++ ".fa.fai"))

/-- Translation of reference_data.get_canonical_transcripts: checks the
genome, strips everything from the first dash, and resolves
canonical_transcripts_{genome}.txt via _get (which checks the stripped
name again). -/
def get_canonical_transcripts (pkg_dir genome : String) : Res String :=
  Res.bind (check_genome genome) (fun _ =>
    let genome2 := (pySplitOnChar (Char.ofNat 45) genome).headD ""
    refdata_get pkg_dir genome2 ("canonical_transcripts_" ++ genome2 ++ ".txt"))

/-- Python str.endswith, stated over the character lists of the strings. -/
def pyEndsWith (s suffix : String) : Bool := suffix.data.isSuffixOf s.data

/-- Python line.strip(). -/
def pyStrip (s : String) : String := s.trim

/-- Python line.split() with no argument: split on whitespace runs,
dropping empty fields. -/
def pyWhitespaceSplit (s : String) : List String :=
  (s.split Char.isWhitespace).filter (fun t => t ≠ "")

/-- Python values appearing as the second component of a chromosome-length
pair in get_chrom_lengths: a string field of a .fai line, or an integer
sequence length of a parsed .fa record. -/
inductive ChromLen where
  | strLen : String → ChromLen
  | natLen : Nat → ChromLen
deriving Repr, DecidableEq

/-- Per-line loop of get_chrom_lengths over the lines of a .fai file: skip
lines that are empty after stripping; from each remaining line, take the
first two whitespace-separated fields (fewer than two raises IndexError). -/
def faiChromLengths : List String → Res (List (String × ChromLen))
  | [] => .ok []
  | line :: rest =>
    let stripped := pyStrip line
    if stripped = "" then faiChromLengths rest
    else
      match pyWhitespaceSplit stripped with
      | chrom :: len :: _ =>
        Res.bind (faiChromLengths rest) (fun tl => .ok ((chrom, ChromLen.strLen len) :: tl))
      | _ => .raised "IndexError"

/-- Readable text contents of the filesystem: the lines of each readable
file, and the records of each parseable fasta file (opening a missing file
raises in Python). -/
structure TextFS where
  lines : String → Option (List String)
  fastaRecords : String → Option (List (String × Nat))

/-- Translation of reference_data.get_chrom_lengths: asserts that a genome
or a fai path was given; with a genome name (and no fai path) the .fai
path is resolved through check_genome and get_fai, with an explicit fai
path the file is verified with is_critical=True; a resolved path ending in
.fai is parsed line by line, one ending in .fa is parsed as fasta, and any
other ending is a critical error. -/
def get_chrom_lengths (fs : FS) (tfs : TextFS) (pkg_dir : String)
    (genome fai_fpath : Option String) : Res (List (String × ChromLen)) :=
  if (pyTruthyOptStr genome || pyTruthyOptStr fai_fpath) = false then .raised "AssertionError"
  else
    let resolved : Res String :=
      if pyTruthyOptStr fai_fpath = false then
        Res.bind (check_genome (genome.getD "")) (fun _ => get_fai pkg_dir (genome.getD ""))
      else
        match verify_file fs (fai_fpath.getD "") with
        | some p => .ok p
        | none => .critical ("file not found: " ++ fai_fpath.getD "")
    Res.bind resolved (fun fai =>
      if pyEndsWith fai ".fai" then
        match tfs.lines (adjust_path fai) with
        | some ls => faiChromLengths ls
        | none => .raised "FileNotFoundError"
      else if pyEndsWith fai ".fa" then
        match tfs.fastaRecords (adjust_path fai) with
        | some recs => .ok (recs.map (fun r => (r.1, ChromLen.natLen r.2)))
        | none => .raised "FileNotFoundError"
      else .critical ".fai or .fa is accepted")

theorem faiChromLengths_not_critical (lines : List String) :
    ∀ m, faiChromLengths lines ≠ .critical m := by
  induction lines with
  | nil => intro m; simp [faiChromLengths]
  | cons line rest ih =>
    intro m
    unfold faiChromLengths
    by_cases h : pyStrip line = ""
    · simpa [h] using ih m
    · simp only [h, if_false]
      match pyWhitespaceSplit (pyStrip line) with
      | [] => simp
      | [c] => simp
      | c :: l :: t =>
        simp only []
        match hrec : faiChromLengths rest with
        | .ok v => simp [Res.bind]
        | .critical m2 => exact absurd hrec (ih m2)
        | .raised m2 => simp [Res.bind]

theorem pyEndsWith_append_left (a b suffix : String)
    (h : pyEndsWith b suffix = true) : pyEndsWith (a ++ b) suffix = true := by
  unfold pyEndsWith at h ⊢
  have hd : (a ++ b).data = a.data ++ b.data := by cases a; cases b; rfl
  rw [hd]
  have hs : suffix.data <:+ b.data := List.isSuffixOf_iff_suffix.mp h
  exact List.isSuffixOf_iff_suffix.mpr (hs.trans (List.suffix_append a.data b.data))

/-- C4: the genome-reference accessors are keyed by the fixed list of five
supported builds: check_genome, get_fai, get_canonical_transcripts, and
get_chrom_lengths called with a (non-empty) genome name terminate with a
critical error exactly when the genome is not in the list, and for every
genome in the list the check passes without error. -/
theorem genome_accessors_critical_iff_unsupported :
    SUPPORTED_GENOMES = ["hg19", "hg19-noalt", "hg38", "hg38-noalt", "hg19-chr20"] ∧
    (∀ g, g ∈ SUPPORTED_GENOMES → check_genome g = .ok ()) ∧
    (∀ g, (∃ m, check_genome g = .critical m) ↔ g ∉ SUPPORTED_GENOMES) ∧
    (∀ pkg g, (∃ m, get_fai pkg g = .critical m) ↔ g ∉ SUPPORTED_GENOMES) ∧
    (∀ pkg g, (∃ m, get_canonical_transcripts pkg g = .critical m) ↔ g ∉ SUPPORTED_GENOMES) ∧
    (∀ fs tfs pkg g, g ≠ "" →
      ((∃ m, get_chrom_lengths fs tfs pkg (some g) none = .critical m) ↔
        g ∉ SUPPORTED_GENOMES)) := by
  have hok : ∀ g, g ∈ SUPPORTED_GENOMES → check_genome g = .ok () := by
    intro g hg
    fin_cases hg <;> rfl
  have hcrit : ∀ g, (∃ m, check_genome g = .critical m) ↔ g ∉ SUPPORTED_GENOMES := by
    intro g
    unfold check_genome
    by_cases h : SUPPORTED_GENOMES.contains g = true
    · simp [h, List.elem_iff.mp h]
    · have : g ∉ SUPPORTED_GENOMES := fun hm => h (List.elem_iff.mpr hm)
      simp [h, this]
  refine ⟨rfl, hok, hcrit, ?_, ?_, ?_⟩
  · intro pkg g
    unfold get_fai refdata_get
    by_cases h : g ∈ SUPPORTED_GENOMES
    · rw [hok g h]
      simp [Res.bind, h]
    · obtain ⟨m, hm⟩ := (hcrit g).mpr h
      rw [hm]
      simp [Res.bind, h]
  · intro pkg g
    have hsplit : ∀ g, g ∈ SUPPORTED_GENOMES →
        check_genome ((pySplitOnChar (Char.ofNat 45) g).headD "") = .ok () := by
      intro g hg
      fin_cases hg <;> rfl
    by_cases h : g ∈ SUPPORTED_GENOMES
    · unfold get_canonical_transcripts refdata_get
      rw [hok g h]
      simp only [Res.bind]
      rw [hsplit g h]
      simp [Res.bind, h]
    · obtain ⟨m, hm⟩ := (hcrit g).mpr h
      unfold get_canonical_transcripts
      rw [hm]
      simp [Res.bind, h]
  · intro fs tfs pkg g hne
    have htr : pyTruthyOptStr (some g) = true := by simp [pyTruthyOptStr, hne]
    unfold get_chrom_lengths
    rw [if_neg (by simp [pyTruthyOptStr, hne])]
    simp only [pyTruthyOptStr, Option.getD_some, reduceIte]
    by_cases h : g ∈ SUPPORTED_GENOMES
    · rw [hok g h]
      have hfai : ∀ m, Res.bind (get_fai pkg g) (fun fai =>
          if pyEndsWith fai ".fai" = true then
            match tfs.lines (adjust_path fai) with
            | some ls => faiChromLengths ls
            | none => (.raised "FileNotFoundError" : Res (List (String × ChromLen)))
          else if pyEndsWith fai ".fa" = true then
            match tfs.fastaRecords (adjust_path fai) with
            | some recs => .ok (recs.map (fun r => (r.1, ChromLen.natLen r.2)))
            | none => .raised "FileNotFoundError"
          else .critical ".fai or .fa is accepted") ≠ .critical m := by
        intro m
        unfold get_fai refdata_get
        rw [hok g h]
        have hend : pyEndsWith (pyJoin pkg (pyJoin "fai" (g ++ ".fa.fai"))) ".fai" = true := by
          unfold pyJoin
          apply pyEndsWith_append_left
          apply pyEndsWith_append_left
          show pyEndsWith (g ++ ".fa.fai") ".fai" = true
          apply pyEndsWith_append_left
          rfl
        simp only [Res.bind, hend, if_true]
        match tfs.lines (adjust_path (pyJoin pkg (pyJoin "fai" (g ++ ".fa.fai")))) with
        | some ls => exact faiChromLengths_not_critical ls m
        | none => simp
      constructor
      · intro ⟨m, hm⟩
        exact absurd hm (by simpa [Res.bind] using hfai m)
      · intro hn; exact absurd h hn
    · obtain ⟨m, hm⟩ := (hcrit g).mpr h
      refine ⟨?_, fun _ => ?_⟩
      · intro; exact h
      · refine ⟨m, ?_⟩
        simp only [Res.bind, hm]

/-- Witness for C4: hg19 passes the check, and an unsupported genome makes
get_chrom_lengths terminate critically. -/
theorem genome_accessors_critical_iff_unsupported_witness :
    check_genome "hg19" = .ok () ∧
    (∃ m, get_chrom_lengths { isfile := fun _ => false, isdir := fun _ => false }
      { lines := fun _ => none, fastaRecords := fun _ => none }
      "/refdata" (some "mm10") none = .critical m) := by
  have h := genome_accessors_critical_iff_unsupported
  refine ⟨h.2.1 "hg19" (by decide), ?_⟩
  exact (h.2.2.2.2.2 { isfile := fun _ => false, isdir := fun _ => false }
    { lines := fun _ => none, fastaRecords := fun _ => none }
    "/refdata" "mm10" (by decide)).mpr (by decide)

/-! Bcbio YAML configuration loading (bcbio.py, load_bcbio_cnf). -/

/-- Inputs read by load_bcbio_cnf: the entries of the config directory in
listdir order, and whether the YAML parsed from a path contains a details
key (load_yaml_config comes from ngs_utils.config, not under src/, and is
modelled as an abstract parse exposing only details-membership; the parsed
configuration returned by load_bcbio_cnf is load_yaml_config of the
returned path). -/
structure ConfigDirView where
  listdir : List String
  hasDetails : String → Bool

/-- Translation of load_bcbio_cnf (bcbio.py lines 946-968): collect the
.yaml entries of the config directory, critical when there are none; keep
those not ending in -template.yaml whose parse has a details key, critical
when none or more than one remains; otherwise return the unique one (the
function also returns its parse, which is determined by the path). -/
def load_bcbio_cnf (cfg : ConfigDirView) (config_dir : String) : Res String :=
  let all_yamls := (cfg.listdir.filter (fun fname => pyEndsWith fname ".yaml")).map
    (fun fname => pyJoin config_dir fname)
  if all_yamls.length = 0 then .critical "No YAML file in the config directory."
  else
    let bcbio_yamls := all_yamls.filter
      (fun fpath => !(pyEndsWith fpath "-template.yaml") && cfg.hasDetails fpath)
    if bcbio_yamls.length = 0 then
      .critical "No bcbio YAMLs found in the config directory"
    else if bcbio_yamls.length > 1 then
      .critical "More than one bcbio YAML file found in the config directory"
    else .ok (bcbio_yamls.headD "")

/-- Qualifying files per the claim: .yaml entries of the config directory
that do not end in -template.yaml and whose parsed content has a details
key. -/
def qualifyingYamls (cfg : ConfigDirView) (config_dir : String) : List String :=
  ((cfg.listdir.filter (fun fname => pyEndsWith fname ".yaml")).map
    (fun fname => pyJoin config_dir fname)).filter
    (fun fpath => !(pyEndsWith fpath "-template.yaml") && cfg.hasDetails fpath)

/-- C5: load_bcbio_cnf terminates with a critical error unless the config
directory contains exactly one qualifying YAML file (zero .yaml entries,
zero qualifying files, and more than one qualifying file are all
critical); when exactly one qualifies, it returns that file. -/
theorem load_bcbio_cnf_unique_qualifying (cfg : ConfigDirView) (config_dir : String) :
    (∀ p, load_bcbio_cnf cfg config_dir = .ok p ↔ qualifyingYamls cfg config_dir = [p]) ∧
    ((∃ m, load_bcbio_cnf cfg config_dir = .critical m) ↔
      (qualifyingYamls cfg config_dir).length ≠ 1) := by
  unfold load_bcbio_cnf qualifyingYamls
  by_cases h0 : ((cfg.listdir.filter (fun fname => pyEndsWith fname ".yaml")).map
      (fun fname => pyJoin config_dir fname)).length = 0
  · have hnil : (cfg.listdir.filter (fun fname => pyEndsWith fname ".yaml")).map
        (fun fname => pyJoin config_dir fname) = [] := List.length_eq_zero.mp h0
    rw [hnil]
    simp
  · simp only [h0, if_false]
    match hq : ((cfg.listdir.filter (fun fname => pyEndsWith fname ".yaml")).map
        (fun fname => pyJoin config_dir fname)).filter
        (fun fpath => !(pyEndsWith fpath "-template.yaml") && cfg.hasDetails fpath) with
    | [] => simp
    | [q] => simp
    | q1 :: q2 :: qs => simp [Nat.succ_ne_zero]

/-- Witness for C5: a config directory with a template YAML, a detail-less
YAML and a single qualifying YAML yields exactly that file. -/
theorem load_bcbio_cnf_unique_qualifying_witness :
    let cfg : ConfigDirView :=
      { listdir := ["run-template.yaml", "other.yaml", "bcbio.yaml", "notes.txt"],
        hasDetails := fun p => p = "/proj/config/bcbio.yaml" }
    (load_bcbio_cnf cfg "/proj/config" = .ok "/proj/config/bcbio.yaml" ↔
      qualifyingYamls cfg "/proj/config" = ["/proj/config/bcbio.yaml"]) ∧
    load_bcbio_cnf cfg "/proj/config" = .ok "/proj/config/bcbio.yaml" := by
  intro cfg
  refine ⟨(load_bcbio_cnf_unique_qualifying cfg "/proj/config").1 "/proj/config/bcbio.yaml", ?_⟩
  exact ((load_bcbio_cnf_unique_qualifying cfg "/proj/config").1
    "/proj/config/bcbio.yaml").mpr (by decide)

/-! Bcbio directory detection (bcbio.py, detect_bcbio_dir). -/

/-- Components of a path, split at every slash. -/
def pySplitPath (p : String) : List String := pySplitOnChar (Char.ofNat 47) p

/-- Inverse of pySplitPath on slash-free components. -/
def joinComponents : List String → String
  | [] => ""
  | [c] => c
  | c :: cs => c ++ "/" ++ joinComponents cs

/-- Python os.path.dirname on an absolute, normalized path. -/
def pyDirname (p : String) : String := joinComponents (pySplitPath p).dropLast

/-- Python os.path.basename on an absolute, normalized path. -/
def pyBasename (p : String) : String := (pySplitPath p).getLastD ""

/-- Prefix test on character lists. -/
def charListPrefix : List Char → List Char → Bool
  | [], _ => true
  | _ :: _, [] => false
  | a :: as, b :: bs => a = b && charListPrefix as bs

/-- Infix test on character lists: the needle occurs at some position. -/
def charListInfix (needle : List Char) : List Char → Bool
  | [] => needle.isEmpty
  | b :: bs => charListPrefix needle (b :: bs) || charListInfix needle bs

/-- Python substring containment (needle in haystack). -/
def pyContains (haystack needle : String) : Bool := charListInfix needle.data haystack.data

/-- Translation of detect_bcbio_dir (bcbio.py lines 887-943).  The function
first absolutizes its input; the model takes the input to be already
absolute and normalized.  Logging through err/info is dropped; the raise
statements become Res.raised with the exception class name.  The date_dir
component of the returned triple is never assigned and stays None. -/
def detect_bcbio_dir (fs : FS) (input_dir : String) :
    Res (Option String × Option String × Option String) :=
  if pyContains (pyBasename input_dir) "final" then
    let final_dir := input_dir
    let root_dir := pyDirname final_dir
    let config_dir := pyJoin root_dir "config"
    if !fs.isdir config_dir then .raised "NoConfigDirException"
    else .ok (some config_dir, some final_dir, none)
  else if pyBasename input_dir = "config" then
    .ok (some input_dir, none, none)
  else if fs.isdir (pyJoin input_dir "config") then
    .ok (some (pyJoin input_dir "config"), none, none)
  else if fs.isdir (pyJoin (pyDirname (pyDirname input_dir)) "config") then
    .ok (some (pyJoin (pyDirname (pyDirname input_dir)) "config"),
         some (pyDirname input_dir), none)
  else .raised "NoConfigDirException"

/-- C6: detect_bcbio_dir resolves its input by four ordered cases: a
basename containing final makes the input the final dir and requires the
sibling config directory; a basename equal to config makes the input the
config dir; a child config directory is used next; a config directory two
levels up makes the input a datestamp dir with the final dir one level up;
otherwise, and when the sibling config of a final input is missing, it
raises NoConfigDirException. -/
theorem detect_bcbio_dir_four_cases (fs : FS) (input_dir : String) :
    (pyContains (pyBasename input_dir) "final" = true →
      (fs.isdir (pyJoin (pyDirname input_dir) "config") = true →
        detect_bcbio_dir fs input_dir =
          .ok (some (pyJoin (pyDirname input_dir) "config"), some input_dir, none)) ∧
      (fs.isdir (pyJoin (pyDirname input_dir) "config") = false →
        detect_bcbio_dir fs input_dir = .raised "NoConfigDirException")) ∧
    (pyContains (pyBasename input_dir) "final" = false →
      ((pyBasename input_dir = "config" →
         detect_bcbio_dir fs input_dir = .ok (some input_dir, none, none)) ∧
       (pyBasename input_dir ≠ "config" →
         (fs.isdir (pyJoin input_dir "config") = true →
            detect_bcbio_dir fs input_dir = .ok (some (pyJoin input_dir "config"), none, none)) ∧
         (fs.isdir (pyJoin input_dir "config") = false →
            (fs.isdir (pyJoin (pyDirname (pyDirname input_dir)) "config") = true →
              detect_bcbio_dir fs input_dir =
                .ok (some (pyJoin (pyDirname (pyDirname input_dir)) "config"),
                     some (pyDirname input_dir), none)) ∧
            (fs.isdir (pyJoin (pyDirname (pyDirname input_dir)) "config") = false →
              detect_bcbio_dir fs input_dir = .raised "NoConfigDirException"))))) := by
  unfold detect_bcbio_dir
  constructor
  · intro hfin
    constructor
    · intro hcfg
      rw [if_pos hfin]
      simp [hcfg]
    · intro hcfg
      rw [if_pos hfin]
      simp [hcfg]
  · intro hfin
    constructor
    · intro hcfg
      rw [if_neg (by simp [hfin]), if_pos hcfg]
    · intro hcfg
      constructor
      · intro hchild
        rw [if_neg (by simp [hfin]), if_neg hcfg, if_pos hchild]
      · intro hchild
        constructor
        · intro htwoup
          rw [if_neg (by simp [hfin]), if_neg hcfg, if_neg (by simp [hchild]),
            if_pos htwoup]
        · intro htwoup
          rw [if_neg (by simp [hfin]), if_neg hcfg, if_neg (by simp [hchild]),
            if_neg (by simp [htwoup])]

/-- Witness for C6: run on a final directory with the sibling config
directory present. -/
theorem detect_bcbio_dir_four_cases_witness :
    let fs : FS := { isfile := fun _ => false, isdir := fun q => q = "/proj/config" }
    detect_bcbio_dir fs "/proj/final" =
      .ok (some "/proj/config", some "/proj/final", none) := by
  intro fs
  exact ((detect_bcbio_dir_four_cases fs "/proj/final").1 (by decide)).1 (by decide)

/-! Datestamp directory resolution (bcbio.py, BcbioProject._set_date_dir). -/

/-- Value of int() on a string of decimal digits (the regex match below
guarantees the argument is all digits, so the Python call cannot fail). -/
def digitsToNat : List Char → Nat → Nat
  | [], acc => acc
  | c :: cs, acc => digitsToNat cs (acc * 10 + (c.toNat - 48))

/-- Python int() on a digit string. -/
def pyInt (s : String) : Nat := digitsToNat s.data 0

/-- Match of the datestamp regex of _set_date_dir against a directory name:
four digits, a dash, [01], a digit, a dash, [0-3], a digit, an underscore,
then fc_name.  The Python code interpolates fc_name into the regex source;
the model matches it literally, which is faithful whenever fc_name contains
no regex metacharacters.  re.match anchors at the start only, so anything
may follow. -/
def dateStampRegexMatch (fc_name : String) (dirpath : String) : Bool :=
  match dirpath.data with
  | y1 :: y2 :: y3 :: y4 :: s1 :: m1 :: m2 :: s2 :: a1 :: a2 :: u :: rest =>
    y1.isDigit && y2.isDigit && y3.isDigit && y4.isDigit &&
    s1 = Char.ofNat 45 && (m1 = '0' || m1 = '1') && m2.isDigit &&
    s2 = Char.ofNat 45 && (Char.ofNat 48 ≤ a1 && a1 ≤ Char.ofNat 51) && a2.isDigit &&
    u = Char.ofNat 95 && fc_name.data.isPrefixOf rest
  | _ => false

/-- Python date tuple of a datestamp directory path:
tuple(map(int, basename(d).split(sep1)[0].split(sep2))) with sep1 an
underscore and sep2 a dash. -/
def dateKey (d : String) : List Nat :=
  ((pySplitOnChar (Char.ofNat 45)
    ((pySplitOnChar (Char.ofNat 95) (pyBasename d)).headD "")).map pyInt)

/-- Lexicographic comparison of Python tuples of ints (shorter tuples
compare less when they are a proper prefix). -/
def natListLt : List Nat → List Nat → Bool
  | [], [] => false
  | [], _ :: _ => true
  | _ :: _, [] => false
  | a :: as, b :: bs => if a < b then true else if b < a then false else natListLt as bs

/-- Comparison of the (date tuple, path) pairs sorted by _set_date_dir:
tuple order first, then Python string order on the path. -/
def dateEntryLt (x y : List Nat × String) : Bool :=
  natListLt x.1 y.1 || (x.1 = y.1 && decide (x.2 < y.2))

/-- First maximal element of the (date tuple, path) pairs: the head of
sorted(dates, reverse=True), which is stable, so the earliest of the
maximal pairs. -/
def pickNewest (best : List Nat × String) : List (List Nat × String) → List Nat × String
  | [] => best
  | x :: rest => pickNewest (if dateEntryLt best x then x else best) rest

/-- Values of the bcbio config that _set_date_dir reads. -/
structure BcbioCnfDates where
  fc_date : Option String
  fc_name : Option String

/-- Translation of BcbioProject._set_date_dir (bcbio.py lines 584-619) with
create_dir=False (safe_mkdir is an effect on the filesystem, not modelled).
listdir(final_dir) is passed as the listdirFinal parameter.  When date_dir
is falsy the directory is derived from fc_date/fc_name, from the bcbio-CWL
project directory, or from the datestamp-named entries of the final dir;
no datestamp entry raises NoDateStampsException and several equal newest
entries raise MultipleDateStampsException. -/
def set_date_dir (fs : FS) (listdirFinal : List String) (cnf : BcbioCnfDates)
    (final_dir : String) (date_dir : Option String) (create_dir _silent : Bool) : Res String :=
  if pyTruthyOptStr date_dir = false then
    let fc_name := pyOrStr cnf.fc_name "project"
    if pyTruthyOptStr cnf.fc_date = true then
      let dd := pyJoin final_dir (cnf.fc_date.getD "" ++ "_" ++ fc_name)
      if !create_dir && (verify_dir fs (some dd)).isNone then
        .critical "Error: no project directory of that datestamp format"
      else .ok dd
    else
      if fs.isdir (pyJoin final_dir "project") then .ok (pyJoin final_dir "project")
      else
        let date_dirs := (listdirFinal.filter (dateStampRegexMatch fc_name)).map
          (fun dirpath => pyJoin final_dir dirpath)
        if date_dirs.length = 0 then .raised "NoDateStampsException"
        else if date_dirs.length = 1 then .ok (date_dirs.headD "")
        else
          match date_dirs.map (fun d => (dateKey d, d)) with
          | [] => .raised "NoDateStampsException"
          | e :: es =>
            let newest := pickNewest e es
            let newest_dirs := date_dirs.filter (fun d => d = newest.2)
            if newest_dirs.length > 1 then .raised "MultipleDateStampsException"
            else .ok (newest_dirs.headD "")
  else .ok (date_dir.getD "")

/-- Closed counterexample to C3 as stated: on an input directory that is
neither config nor final, with no config directory nearby, detect_bcbio_dir
neither returns None nor terminates critically: it raises
NoConfigDirException to its caller. -/
theorem detect_bcbio_dir_raises_counterexample :
    detect_bcbio_dir { isfile := fun _ => false, isdir := fun _ => false } "/data/run1" =
      .raised "NoConfigDirException" := by decide

/-- C3 (amended): every failure path of the directory/file resolution code
either logs and returns None (the VCF cascades are Option-valued), or
terminates with a critical exit, or raises one of the three dedicated
resolution exceptions: detect_bcbio_dir returns normally or raises
NoConfigDirException; _set_date_dir returns normally, exits critically, or
raises NoDateStampsException or MultipleDateStampsException; load_bcbio_cnf
returns normally or exits critically. -/
theorem resolution_failure_modes :
    (∀ fs input_dir, (∃ v, detect_bcbio_dir fs input_dir = .ok v) ∨
      detect_bcbio_dir fs input_dir = .raised "NoConfigDirException") ∧
    (∀ fs ld cnf final_dir date_dir cd sil,
      (∃ v, set_date_dir fs ld cnf final_dir date_dir cd sil = .ok v) ∨
      (∃ m, set_date_dir fs ld cnf final_dir date_dir cd sil = .critical m) ∨
      set_date_dir fs ld cnf final_dir date_dir cd sil = .raised "NoDateStampsException" ∨
      set_date_dir fs ld cnf final_dir date_dir cd sil = .raised "MultipleDateStampsException") ∧
    (∀ cfg config_dir, (∃ v, load_bcbio_cnf cfg config_dir = .ok v) ∨
      (∃ m, load_bcbio_cnf cfg config_dir = .critical m)) := by
  refine ⟨?_, ?_, ?_⟩
  · intro fs input_dir
    unfold detect_bcbio_dir
    dsimp only
    repeat' split
    all_goals first
      | exact Or.inr rfl
      | exact Or.inl ⟨_, rfl⟩
  · intro fs ld cnf final_dir date_dir cd sil
    unfold set_date_dir
    dsimp only
    repeat' split
    all_goals first
      | exact Or.inl ⟨_, rfl⟩
      | exact Or.inr (Or.inl ⟨_, rfl⟩)
      | exact Or.inr (Or.inr (Or.inl rfl))
      | exact Or.inr (Or.inr (Or.inr rfl))
  · intro cfg config_dir
    unfold load_bcbio_cnf
    dsimp only
    repeat' split
    all_goals first
      | exact Or.inl ⟨_, rfl⟩
      | exact Or.inr ⟨_, rfl⟩

/-! BAM resolution for a sample (bcbio.py, BcbioSample.find_bam). -/

/-- Python str.startswith, stated over the character lists of the strings. -/
def pyStartsWith (s pre : String) : Bool := pre.data.isPrefixOf s.data

/-- Translation of BcbioSample.find_bam (bcbio.py lines 160-188): try
<name>-ready.bam, <name>-ready.cram and <name>-sort.bam in the sample
directory, returning the first that verifies; failing those, when the
input file of the YAML config (sample_info, stored in the files field as a
string or a list of strings; taking element 0 of an empty list raises
IndexError) is a path ending in .bam, return it after absolutizing
relative paths against the project work dir, provided it exists; otherwise
warn (dropped by the model) and return None.  An unconstructed sample
(name or dirpath still None) makes the Python string concatenations raise
TypeError. -/
def BcbioSample.find_bam (fs : FS) (p : BcbioProject) (s : BcbioSample)
    (_silent : Bool) : Res (Option String) :=
  match s.get_name_for_files, s.dirpath with
  | some name, some dirpath =>
    let f1 := adjust_path (pyJoin dirpath (name ++ "-ready.bam"))
    let f2 := adjust_path (pyJoin dirpath (name ++ "-ready.cram"))
    let f3 := adjust_path (pyJoin dirpath (name ++ "-sort.bam"))
    if (verify_file fs f1).isSome then .ok (some f1)
    else if (verify_file fs f2).isSome then .ok (some f2)
    else if (verify_file fs f3).isSome then .ok (some f3)
    else
      let input0 : Res String :=
        match s.files with
        | Sum.inl f => .ok f
        | Sum.inr [] => .raised "IndexError"
        | Sum.inr (f :: _) => .ok f
      Res.bind input0 (fun input_file =>
        if pyEndsWith input_file ".bam" then
          let input_file :=
            if pyStartsWith input_file "/" = false then pyJoin p.work_dir input_file
            else input_file
          if (verify_file fs input_file).isSome then .ok (some input_file)
          else .ok none
        else .ok none)
  | _, _ => .raised "TypeError"

theorem verify_file_isSome (fs : FS) (x : String) :
    (verify_file fs x).isSome = fs.isfile x := by
  unfold verify_file
  split <;> simp_all

/-- C7: for every (constructed) sample whose files entry is not an empty
list, find_bam tries, in order, <name>-ready.bam, <name>-ready.cram and
<name>-sort.bam in the sample directory and returns the first that
verifies; failing those, if the input file from the YAML config is a path
ending in .bam it returns that path (made absolute against the project
work dir) when the file exists; otherwise it warns (unless silent) and
returns None. -/
theorem find_bam_cascade (fs : FS) (p : BcbioProject) (s : BcbioSample)
    (silent : Bool) (n d : String)
    (hn : s.get_name_for_files = some n) (hd : s.dirpath = some d)
    (hfiles : s.files ≠ Sum.inr []) :
    s.find_bam fs p silent =
      .ok (match [pyJoin d (n ++ "-ready.bam"), pyJoin d (n ++ "-ready.cram"),
                  pyJoin d (n ++ "-sort.bam")].find? fs.isfile with
        | some f => some f
        | none =>
          let input_file := match s.files with
            | Sum.inl f => f
            | Sum.inr l => l.headD ""
          if pyEndsWith input_file ".bam" then
            let inp := if pyStartsWith input_file "/" = false then pyJoin p.work_dir input_file
              else input_file
            if fs.isfile inp then some inp else none
          else none) := by
  unfold BcbioSample.find_bam
  rw [hn, hd]
  dsimp only
  simp only [verify_file_isSome, adjust_path]
  by_cases h1 : fs.isfile (pyJoin d (n ++ "-ready.bam")) = true
  · rw [if_pos h1, List.find?_cons_of_pos _ h1]
  · rw [Bool.not_eq_true] at h1
    rw [if_neg (by simp [h1]), List.find?_cons_of_neg _ (by simp [h1])]
    by_cases h2 : fs.isfile (pyJoin d (n ++ "-ready.cram")) = true
    · rw [if_pos h2, List.find?_cons_of_pos _ h2]
    · rw [Bool.not_eq_true] at h2
      rw [if_neg (by simp [h2]), List.find?_cons_of_neg _ (by simp [h2])]
      by_cases h3 : fs.isfile (pyJoin d (n ++ "-sort.bam")) = true
      · rw [if_pos h3, List.find?_cons_of_pos _ h3]
      · rw [Bool.not_eq_true] at h3
        rw [if_neg (by simp [h3]), List.find?_cons_of_neg _ (by simp [h3]), List.find?_nil]
        match hf : s.files with
        | Sum.inl f =>
          simp only [Res.bind, verify_file_isSome]
          by_cases hbam : pyEndsWith f ".bam" = true
          · simp only [hbam, if_true, apply_ite Res.ok]
          · simp [hbam]
        | Sum.inr [] => exact absurd hf hfiles
        | Sum.inr (f :: t) =>
          simp only [Res.bind, verify_file_isSome, List.headD]
          by_cases hbam : pyEndsWith f ".bam" = true
          · simp only [hbam, if_true, apply_ite Res.ok]
          · simp [hbam]

/-- Witness for C7: the -ready.bam candidate exists and is returned first. -/
theorem find_bam_cascade_witness :
    let p : BcbioProject :=
      { config_dir := "/proj/config", final_dir := "/proj/final",
        date_dir := "/proj/final/2020-01-01_project", work_dir := "/proj/work",
        var_dir := "/proj/final/2020-01-01_project/var",
        raw_var_dir := "/proj/final/2020-01-01_project/var/raw",
        somatic_caller := "ensemble", germline_caller := "ensemble" }
    let fs : FS :=
      { isfile := fun q => q = "/proj/final/s1/s1-ready.bam", isdir := fun _ => false }
    let s : BcbioSample :=
      { name := some "s1", old_name := none, raw_name := some "s1",
        dirpath := some "/proj/final/s1", phenotype := "tumor",
        batch := some "b1", batch_names := ["b1"], bam := none,
        genome_build := "hg38", variant_regions_bed := none,
        sv_regions_bed := none, coverage_bed := none, is_rnaseq := false,
        coverage_interval := "genome", is_wgs := true, counts_file := none,
        files := Sum.inl "/data/s1.bam" }
    s.find_bam fs p false =
      .ok (match [pyJoin "/proj/final/s1" ("s1" ++ "-ready.bam"),
                  pyJoin "/proj/final/s1" ("s1" ++ "-ready.cram"),
                  pyJoin "/proj/final/s1" ("s1" ++ "-sort.bam")].find? fs.isfile with
        | some f => some f
        | none =>
          let input_file := match s.files with
            | Sum.inl f => f
            | Sum.inr l => l.headD ""
          if pyEndsWith input_file ".bam" then
            let inp := if pyStartsWith input_file "/" = false then pyJoin p.work_dir input_file
              else input_file
            if fs.isfile inp then some inp else none
          else none) := by
  intro p fs s
  exact find_bam_cascade fs p s false "s1" "/proj/final/s1" (by rfl) (by rfl) (by simp)

/-! Batch pairing (bcbio.py, BcbioProject.update_batches). -/

/-- Sample fields read by update_batches.  Samples are identified by their
position in the list; phenotype changes made by the function are tracked
in a separate position-indexed phenotype map. -/
structure UBSample where
  name : String
  phenotype : String
  batch_names : List String
deriving Repr, DecidableEq

/-- State of a Batch object: the optional normal and tumor samples, stored
as positions into the sample list. -/
structure BatchV where
  name : String
  normal : Option Nat
  tumor : Option Nat
deriving Repr, DecidableEq

/-- First-occurrence deduplication, standing in for list(set(...)) in the
batch_by_name comprehension: Python set iteration order is unspecified, but
the resulting dict content does not depend on it, and the outcome of
update_batches is insensitive to the entry order (each loop body touches
only its own entry). -/
def dedupFirst : List String → List String
  | [] => []
  | x :: xs => x :: ((dedupFirst xs).filter (fun y => y != x))

/-- The initial batch_by_name mapping: one fresh Batch per distinct batch
name occurring in the samples. -/
def initBatches (samples : List UBSample) : List (String × BatchV) :=
  (dedupFirst ((samples.map (fun s => s.batch_names)).flatten)).map
    (fun bn => (bn, ({ name := bn, normal := none, tumor := none } : BatchV)))

/-- In-place update of the batch with the given name. -/
def setBatch (m : List (String × BatchV)) (bn : String) (f : BatchV → BatchV) :
    List (String × BatchV) :=
  m.map (fun p => if p.1 = bn then (p.1, f p.2) else p)

/-- Inner loop of update_batches over the batch names of one sample (the
sample at position i with the given phenotype): a normal sample is
recorded as the batch normal, critically when the batch already has one; a
non-normal sample is recorded as the batch tumor.  An absent key would be
a Python KeyError (unreachable from initBatches). -/
def ubAssignOne (m : List (String × BatchV)) (i : Nat) (phenotype : String) :
    List String → Res (List (String × BatchV))
  | [] => .ok m
  | bn :: rest =>
    match m.lookup bn with
    | none => .raised "KeyError"
    | some b =>
      if phenotype = "normal" then
        if b.normal.isSome then .critical ("Multiple normal samples for batch " ++ bn)
        else ubAssignOne (setBatch m bn (fun b0 => { b0 with normal := some i })) i phenotype rest
      else ubAssignOne (setBatch m bn (fun b0 => { b0 with tumor := some i })) i phenotype rest

/-- Outer loop of update_batches over the samples, numbering them from i. -/
def ubAssignAll (m : List (String × BatchV)) (i : Nat) :
    List UBSample → Res (List (String × BatchV))
  | [] => .ok m
  | s :: rest =>
    Res.bind (ubAssignOne m i s.phenotype s.batch_names) (fun m2 => ubAssignAll m2 (i + 1) rest)

/-- Second loop of update_batches: a batch with a normal and no tumor has
its normal re-phenotyped to tumor (recorded in the phenotype map), moved to
the tumor slot, and the normal slot cleared. -/
def ubFlip : List (String × BatchV) → (Nat → String) → List (String × BatchV) × (Nat → String)
  | [], ph => ([], ph)
  | (bn, b) :: rest, ph =>
    if b.normal.isSome && !b.tumor.isSome then
      match b.normal with
      | some i =>
        let ph2 := fun j => if j = i then "tumor" else ph j
        let r := ubFlip rest ph2
        ((bn, { b with tumor := b.normal, normal := none }) :: r.1, r.2)
      | none =>
        let r := ubFlip rest ph
        ((bn, b) :: r.1, r.2)
    else
      let r := ubFlip rest ph
      ((bn, b) :: r.1, r.2)

/-- Final loop of update_batches: b.tumor.normal_match = b.normal reads the
attribute of b.tumor, raising AttributeError when a batch still has no
tumor (None has no attributes). -/
def ubSetMatches (m : List (String × BatchV)) : Res Unit :=
  if m.all (fun p => p.2.tumor.isSome) then .ok () else .raised "AttributeError"

/-- Translation of BcbioProject.update_batches (bcbio.py lines 647-673):
build the batch map, assign every sample to its batches (critical on a
second normal), flip normal-only batches, then set normal_match through
the tumor attribute.  Returns the batch map together with the final
phenotype of each sample position. -/
def update_batches (samples : List UBSample) (_silent : Bool) :
    Res (List (String × BatchV) × (Nat → String)) :=
  Res.bind (ubAssignAll (initBatches samples) 0 samples) (fun m1 =>
    let r := ubFlip m1 (fun i => ((samples.get? i).map UBSample.phenotype).getD "")
    Res.bind (ubSetMatches r.1) (fun _ => .ok (r.1, r.2)))

theorem lookup_setBatch (m : List (String × BatchV)) (bn x : String) (f : BatchV → BatchV) :
    (setBatch m bn f).lookup x =
      if x = bn then (m.lookup x).map f else m.lookup x := by
  induction m with
  | nil => simp [setBatch, List.lookup]
  | cons p rest ih =>
    obtain ⟨k, v⟩ := p
    simp only [setBatch, List.map_cons] at *
    by_cases hb : k = bn
    · rw [if_pos hb]
      by_cases hx : x = k
      · subst hx
        subst hb
        simp [List.lookup]
      · have hxk : (x == k) = false := by simp [beq_iff_eq]; exact hx
        have hxbn : ¬x = bn := fun h => hx (h.trans hb.symm)
        simp only [List.lookup, hxk]
        rw [ih]
    · rw [if_neg hb]
      by_cases hx : x = k
      · subst hx
        have hxbn : ¬x = bn := hb
        simp [List.lookup, hxbn]
      · have hxk : (x == k) = false := by simp [beq_iff_eq]; exact hx
        simp only [List.lookup, hxk]
        rw [ih]

theorem mem_dedupFirst (l : List String) (x : String) : x ∈ dedupFirst l ↔ x ∈ l := by
  induction l with
  | nil => simp [dedupFirst]
  | cons a rest ih =>
    by_cases hx : x = a
    · subst hx
      simp [dedupFirst]
    · simp [dedupFirst, List.mem_filter, hx, ih, bne_iff_ne]

theorem dedupFirst_nodup (l : List String) : (dedupFirst l).Nodup := by
  induction l with
  | nil => simp [dedupFirst]
  | cons a rest ih =>
    simp only [dedupFirst, List.nodup_cons]
    constructor
    · intro hmem
      have h2 := (List.mem_filter.mp hmem).2
      simp at h2
    · exact ih.filter _

theorem lookup_map_mk (l : List String) (g : String → BatchV) (x : String) :
    (l.map (fun bn => (bn, g bn))).lookup x = if x ∈ l then some (g x) else none := by
  induction l with
  | nil => simp [List.lookup]
  | cons a rest ih =>
    by_cases hx : x = a
    · subst hx
      simp [List.lookup]
    · have hxa : (x == a) = false := by simp [beq_iff_eq]; exact hx
      simp only [List.lookup, hxa, ih]
      simp [hx]

theorem lookup_initBatches (samples : List UBSample) (bn : String) :
    (initBatches samples).lookup bn =
      if bn ∈ (samples.map (fun s => s.batch_names)).flatten then
        some { name := bn, normal := none, tumor := none } else none := by
  unfold initBatches
  rw [lookup_map_mk]
  by_cases h : bn ∈ (samples.map (fun s => s.batch_names)).flatten
  · rw [if_pos ((mem_dedupFirst _ _).mpr h), if_pos h]
  · rw [if_neg (fun hc => h ((mem_dedupFirst _ _).mp hc)), if_neg h]

theorem keys_setBatch (m : List (String × BatchV)) (bn : String) (f : BatchV → BatchV) :
    (setBatch m bn f).map Prod.fst = m.map Prod.fst := by
  induction m with
  | nil => rfl
  | cons p rest ih =>
    by_cases hb : p.1 = bn
    · simp [setBatch, hb] at *
      exact ih
    · simp [setBatch, hb] at *
      exact ih

theorem lookup_of_mem_nodup (m : List (String × BatchV)) (bn : String) (b : BatchV)
    (hnd : (m.map Prod.fst).Nodup) (hm : (bn, b) ∈ m) : m.lookup bn = some b := by
  induction m with
  | nil => simp at hm
  | cons p rest ih =>
    obtain ⟨k, v⟩ := p
    simp only [List.map_cons, List.nodup_cons] at hnd
    rcases List.mem_cons.mp hm with h | h
    · rw [Prod.mk.injEq] at h
      obtain ⟨h1, h2⟩ := h
      subst h1
      subst h2
      simp [List.lookup]
    · have hk : k ≠ bn := by
        intro he
        subst he
        exact hnd.1 (List.mem_map_of_mem Prod.fst h)
      have hbk : (bn == k) = false := by simp [beq_iff_eq]; exact fun h2 => hk h2.symm
      simp only [List.lookup, hbk]
      exact ih hnd.2 h

/-- Growth relation between batch states in the assignment phase: the name
is unchanged and the normal/tumor slots are never cleared. -/
def BatchLe (b b' : BatchV) : Prop :=
  b'.name = b.name ∧ (b.normal.isSome = true → b'.normal.isSome = true) ∧
  (b.tumor.isSome = true → b'.tumor.isSome = true)

theorem BatchLe.refl (b : BatchV) : BatchLe b b := ⟨rfl, id, id⟩

theorem BatchLe.trans {a b c : BatchV} (h1 : BatchLe a b) (h2 : BatchLe b c) : BatchLe a c :=
  ⟨h2.1.trans h1.1, fun h => h2.2.1 (h1.2.1 h), fun h => h2.2.2 (h1.2.2 h)⟩

theorem ubAssignOne_mono (i : Nat) (ph : String) (names : List String) :
    ∀ m m', ubAssignOne m i ph names = .ok m' →
      ∀ x b, m.lookup x = some b → ∃ b', m'.lookup x = some b' ∧ BatchLe b b' := by
  induction names with
  | nil =>
    intro m m' hok x b hx
    unfold ubAssignOne at hok
    cases hok
    exact ⟨b, hx, BatchLe.refl b⟩
  | cons bn rest ih =>
    intro m m' hok x b hx
    unfold ubAssignOne at hok
    split at hok
    · exact Res.noConfusion hok
    · rename_i b0 hlk
      split at hok
      · split at hok
        · exact Res.noConfusion hok
        · by_cases hxbn : x = bn
          · subst hxbn
            have hx2 : (setBatch m x (fun b1 => { b1 with normal := some i })).lookup x =
                some { b with normal := some i } := by
              rw [lookup_setBatch, if_pos rfl, hx]
              rfl
            obtain ⟨b', hb', hle⟩ := ih _ _ hok x _ hx2
            have h1 : BatchLe b { b with normal := some i } := ⟨rfl, fun _ => rfl, fun h => h⟩
            exact ⟨b', hb', BatchLe.trans h1 hle⟩
          · have hx2 : (setBatch m bn (fun b1 => { b1 with normal := some i })).lookup x =
                some b := by
              rw [lookup_setBatch, if_neg hxbn]
              exact hx
            exact ih _ _ hok x b hx2
      · by_cases hxbn : x = bn
        · subst hxbn
          have hx2 : (setBatch m x (fun b1 => { b1 with tumor := some i })).lookup x =
              some { b with tumor := some i } := by
            rw [lookup_setBatch, if_pos rfl, hx]
            rfl
          obtain ⟨b', hb', hle⟩ := ih _ _ hok x _ hx2
          have h1 : BatchLe b { b with tumor := some i } := ⟨rfl, fun h => h, fun _ => rfl⟩
          exact ⟨b', hb', BatchLe.trans h1 hle⟩
        · have hx2 : (setBatch m bn (fun b1 => { b1 with tumor := some i })).lookup x =
              some b := by
            rw [lookup_setBatch, if_neg hxbn]
            exact hx
          exact ih _ _ hok x b hx2

theorem ubAssignOne_assigns (i : Nat) (ph : String) (names : List String) :
    ∀ m m', ubAssignOne m i ph names = .ok m' →
      ∀ bn, bn ∈ names → ∀ b, m.lookup bn = some b →
        ∃ b', m'.lookup bn = some b' ∧ (b'.normal.isSome || b'.tumor.isSome) = true := by
  induction names with
  | nil =>
    intro m m' hok bn hmem
    exact absurd hmem (List.not_mem_nil bn)
  | cons n0 rest ih =>
    intro m m' hok bn hmem b hx
    unfold ubAssignOne at hok
    split at hok
    · exact Res.noConfusion hok
    · rename_i b0 hlk
      split at hok
      · split at hok
        · exact Res.noConfusion hok
        · by_cases hbn : bn = n0
          · subst hbn
            have hx2 : (setBatch m bn (fun b1 => { b1 with normal := some i })).lookup bn =
                some { b with normal := some i } := by
              rw [lookup_setBatch, if_pos rfl, hx]
              rfl
            obtain ⟨b', hb', hle⟩ := ubAssignOne_mono i ph rest _ _ hok bn _ hx2
            refine ⟨b', hb', ?_⟩
            have : b'.normal.isSome = true := hle.2.1 rfl
            simp [this]
          · have hx2 : (setBatch m n0 (fun b1 => { b1 with normal := some i })).lookup bn =
                some b := by
              rw [lookup_setBatch, if_neg hbn]
              exact hx
            exact ih _ _ hok bn (List.mem_of_ne_of_mem hbn hmem) b hx2
      · by_cases hbn : bn = n0
        · subst hbn
          have hx2 : (setBatch m bn (fun b1 => { b1 with tumor := some i })).lookup bn =
              some { b with tumor := some i } := by
            rw [lookup_setBatch, if_pos rfl, hx]
            rfl
          obtain ⟨b', hb', hle⟩ := ubAssignOne_mono i ph rest _ _ hok bn _ hx2
          refine ⟨b', hb', ?_⟩
          have : b'.tumor.isSome = true := hle.2.2 rfl
          simp [this]
        · have hx2 : (setBatch m n0 (fun b1 => { b1 with tumor := some i })).lookup bn =
              some b := by
            rw [lookup_setBatch, if_neg hbn]
            exact hx
          exact ih _ _ hok bn (List.mem_of_ne_of_mem hbn hmem) b hx2

theorem ubAssignOne_normal_assigns (i : Nat) (names : List String) :
    ∀ m m', ubAssignOne m i "normal" names = .ok m' →
      ∀ bn, bn ∈ names → ∀ b, m.lookup bn = some b →
        ∃ b', m'.lookup bn = some b' ∧ b'.normal.isSome = true := by
  induction names with
  | nil =>
    intro m m' hok bn hmem
    exact absurd hmem (List.not_mem_nil bn)
  | cons n0 rest ih =>
    intro m m' hok bn hmem b hx
    unfold ubAssignOne at hok
    split at hok
    · exact Res.noConfusion hok
    · rename_i b0 hlk
      split at hok
      · split at hok
        · exact Res.noConfusion hok
        · by_cases hbn : bn = n0
          · subst hbn
            have hx2 : (setBatch m bn (fun b1 => { b1 with normal := some i })).lookup bn =
                some { b with normal := some i } := by
              rw [lookup_setBatch, if_pos rfl, hx]
              rfl
            obtain ⟨b', hb', hle⟩ := ubAssignOne_mono i "normal" rest _ _ hok bn _ hx2
            exact ⟨b', hb', hle.2.1 rfl⟩
          · have hx2 : (setBatch m n0 (fun b1 => { b1 with normal := some i })).lookup bn =
                some b := by
              rw [lookup_setBatch, if_neg hbn]
              exact hx
            exact ih _ _ hok bn (List.mem_of_ne_of_mem hbn hmem) b hx2
      · rename_i hph
        exact absurd rfl hph

theorem ubAssignOne_pres (i : Nat) (ph : String) (names : List String)
    (m m' : List (String × BatchV)) (hok : ubAssignOne m i ph names = .ok m') (x : String)
    (hx : (m.lookup x).isSome = true) : (m'.lookup x).isSome = true := by
  obtain ⟨b, hb⟩ := Option.isSome_iff_exists.mp hx
  obtain ⟨b', hb', _⟩ := ubAssignOne_mono i ph names m m' hok x b hb
  simp [hb']

theorem ubAssignOne_second_normal_critical (i : Nat) (names : List String) :
    ∀ m bn, bn ∈ names → (∀ n, n ∈ names → (m.lookup n).isSome = true) →
      ∀ b, m.lookup bn = some b → b.normal.isSome = true →
        ∃ msg, ubAssignOne m i "normal" names = .critical msg := by
  induction names with
  | nil =>
    intro m bn hmem
    exact absurd hmem (List.not_mem_nil bn)
  | cons n0 rest ih =>
    intro m bn hmem hpres b hb hnorm
    obtain ⟨b0, hb0⟩ := Option.isSome_iff_exists.mp (hpres n0 (List.mem_cons_self n0 rest))
    unfold ubAssignOne
    rw [hb0]
    simp only [if_pos rfl]
    by_cases h0 : b0.normal.isSome = true
    · rw [if_pos h0]
      exact ⟨_, rfl⟩
    · have hne : bn ≠ n0 := by
        intro he
        subst he
        rw [hb] at hb0
        injection hb0 with hbb
        subst hbb
        exact h0 hnorm
      rw [if_neg h0]
      apply ih (setBatch m n0 (fun b1 => { b1 with normal := some i })) bn
        (List.mem_of_ne_of_mem hne hmem)
      · intro n hn
        rw [lookup_setBatch]
        by_cases hnn : n = n0
        · rw [if_pos hnn, hnn, hb0]
          simp
        · rw [if_neg hnn]
          exact hpres n (List.mem_cons_of_mem n0 hn)
      · rw [lookup_setBatch, if_neg hne]
        exact hb
      · exact hnorm

theorem ubAssignOne_total (i : Nat) (ph : String) (names : List String) :
    ∀ m, (∀ n, n ∈ names → (m.lookup n).isSome = true) →
      (∃ m', ubAssignOne m i ph names = .ok m') ∨
      (∃ msg, ubAssignOne m i ph names = .critical msg) := by
  induction names with
  | nil =>
    intro m _
    exact Or.inl ⟨m, rfl⟩
  | cons n0 rest ih =>
    intro m hpres
    obtain ⟨b0, hb0⟩ := Option.isSome_iff_exists.mp (hpres n0 (List.mem_cons_self n0 rest))
    unfold ubAssignOne
    rw [hb0]
    dsimp only
    by_cases hph : ph = "normal"
    · rw [if_pos hph]
      by_cases h0 : b0.normal.isSome = true
      · rw [if_pos h0]
        exact Or.inr ⟨_, rfl⟩
      · rw [if_neg h0]
        apply ih
        intro n hn
        rw [lookup_setBatch]
        by_cases hnn : n = n0
        · rw [if_pos hnn, hnn, hb0]
          simp
        · rw [if_neg hnn]
          exact hpres n (List.mem_cons_of_mem n0 hn)
    · rw [if_neg hph]
      apply ih
      intro n hn
      rw [lookup_setBatch]
      by_cases hnn : n = n0
      · rw [if_pos hnn, hnn, hb0]
        simp
      · rw [if_neg hnn]
        exact hpres n (List.mem_cons_of_mem n0 hn)

theorem ubAssignOne_keys (i : Nat) (ph : String) (names : List String) :
    ∀ m m', ubAssignOne m i ph names = .ok m' → m'.map Prod.fst = m.map Prod.fst := by
  induction names with
  | nil =>
    intro m m' hok
    cases hok
    rfl
  | cons bn rest ih =>
    intro m m' hok
    unfold ubAssignOne at hok
    split at hok
    · exact Res.noConfusion hok
    · split at hok
      · split at hok
        · exact Res.noConfusion hok
        · rw [ih _ _ hok, keys_setBatch]
      · rw [ih _ _ hok, keys_setBatch]

theorem Res.bind_ok {α β : Type} (r : Res α) (f : α → Res β) (v : β)
    (h : Res.bind r f = .ok v) : ∃ a, r = .ok a ∧ f a = .ok v := by
  cases r with
  | ok a => exact ⟨a, rfl, h⟩
  | critical m => exact Res.noConfusion h
  | raised m => exact Res.noConfusion h

theorem ubAssignAll_mono (samples : List UBSample) :
    ∀ m i m', ubAssignAll m i samples = .ok m' →
      ∀ x b, m.lookup x = some b → ∃ b', m'.lookup x = some b' ∧ BatchLe b b' := by
  induction samples with
  | nil =>
    intro m i m' hok x b hx
    cases hok
    exact ⟨b, hx, BatchLe.refl b⟩
  | cons s rest ih =>
    intro m i m' hok x b hx
    unfold ubAssignAll at hok
    obtain ⟨m2, h1, h2⟩ := Res.bind_ok _ _ _ hok
    obtain ⟨b2, hb2, hle2⟩ := ubAssignOne_mono i s.phenotype s.batch_names m m2 h1 x b hx
    obtain ⟨b', hb', hle'⟩ := ih m2 (i + 1) m' h2 x b2 hb2
    exact ⟨b', hb', BatchLe.trans hle2 hle'⟩

theorem ubAssignAll_keys (samples : List UBSample) :
    ∀ m i m', ubAssignAll m i samples = .ok m' → m'.map Prod.fst = m.map Prod.fst := by
  induction samples with
  | nil =>
    intro m i m' hok
    cases hok
    rfl
  | cons s rest ih =>
    intro m i m' hok
    unfold ubAssignAll at hok
    obtain ⟨m2, h1, h2⟩ := Res.bind_ok _ _ _ hok
    rw [ih m2 (i + 1) m' h2, ubAssignOne_keys i s.phenotype s.batch_names m m2 h1]

theorem ubAssignAll_assigns (samples : List UBSample) :
    ∀ m i m', ubAssignAll m i samples = .ok m' →
      ∀ s, s ∈ samples → ∀ bn, bn ∈ s.batch_names → ∀ b, m.lookup bn = some b →
        ∃ b', m'.lookup bn = some b' ∧ (b'.normal.isSome || b'.tumor.isSome) = true := by
  induction samples with
  | nil =>
    intro m i m' hok s hs
    exact absurd hs (List.not_mem_nil s)
  | cons s0 rest ih =>
    intro m i m' hok s hs bn hbn b hb
    unfold ubAssignAll at hok
    obtain ⟨m2, h1, h2⟩ := Res.bind_ok _ _ _ hok
    rcases List.mem_cons.mp hs with hseq | hsrest
    · subst hseq
      obtain ⟨b2, hb2, hset2⟩ := ubAssignOne_assigns i s.phenotype s.batch_names m m2 h1 bn hbn b hb
      obtain ⟨b', hb', hle'⟩ := ubAssignAll_mono rest m2 (i + 1) m' h2 bn b2 hb2
      refine ⟨b', hb', ?_⟩
      rcases Bool.or_eq_true_iff.mp hset2 with hn | ht
      · simp [hle'.2.1 hn]
      · simp [hle'.2.2 ht]
    · obtain ⟨b2, hb2, _⟩ := ubAssignOne_mono i s0.phenotype s0.batch_names m m2 h1 bn b hb
      exact ih m2 (i + 1) m' h2 s hsrest bn hbn b2 hb2

theorem ubAssignAll_critical_of_normal_set (samples : List UBSample) :
    ∀ m i bn b, m.lookup bn = some b → b.normal.isSome = true →
      (∀ s', s' ∈ samples → ∀ n, n ∈ s'.batch_names → (m.lookup n).isSome = true) →
      (∃ s2, s2 ∈ samples ∧ s2.phenotype = "normal" ∧ bn ∈ s2.batch_names) →
      ∃ msg, ubAssignAll m i samples = .critical msg := by
  induction samples with
  | nil =>
    intro m i bn b _ _ _ hw
    obtain ⟨s2, hs2, _⟩ := hw
    exact absurd hs2 (List.not_mem_nil s2)
  | cons s0 rest ih =>
    intro m i bn b hb hnorm hpres hw
    by_cases hwit : s0.phenotype = "normal" ∧ bn ∈ s0.batch_names
    · obtain ⟨msg, hc⟩ := ubAssignOne_second_normal_critical i s0.batch_names m bn hwit.2
        (fun n hn => hpres s0 (List.mem_cons_self s0 rest) n hn) b hb hnorm
      refine ⟨msg, ?_⟩
      unfold ubAssignAll
      rw [hwit.1, hc]
      rfl
    · have hw2 : ∃ s2, s2 ∈ rest ∧ s2.phenotype = "normal" ∧ bn ∈ s2.batch_names := by
        obtain ⟨s2, hs2, hph2, hbn2⟩ := hw
        rcases List.mem_cons.mp hs2 with he | hr
        · exact absurd ⟨he ▸ hph2, he ▸ hbn2⟩ hwit
        · exact ⟨s2, hr, hph2, hbn2⟩
      rcases ubAssignOne_total i s0.phenotype s0.batch_names m
          (fun n hn => hpres s0 (List.mem_cons_self s0 rest) n hn) with hok | hcrit
      · obtain ⟨m2, hm2⟩ := hok
        obtain ⟨b2, hb2, hle2⟩ := ubAssignOne_mono i s0.phenotype s0.batch_names m m2 hm2 bn b hb
        obtain ⟨msg, hc⟩ := ih m2 (i + 1) bn b2 hb2 (hle2.2.1 hnorm)
          (fun s' hs' n hn => ubAssignOne_pres i s0.phenotype s0.batch_names m m2 hm2 n
            (hpres s' (List.mem_cons_of_mem s0 hs') n hn)) hw2
        refine ⟨msg, ?_⟩
        unfold ubAssignAll
        rw [hm2]
        simp only [Res.bind]
        exact hc
      · obtain ⟨msg, hc⟩ := hcrit
        refine ⟨msg, ?_⟩
        unfold ubAssignAll
        rw [hc]
        rfl

theorem ubAssignAll_two_normals_critical (l1 : List UBSample) :
    ∀ (s : UBSample) (l2 : List UBSample) m i bn,
      s.phenotype = "normal" → bn ∈ s.batch_names →
      (∃ s2, s2 ∈ l2 ∧ s2.phenotype = "normal" ∧ bn ∈ s2.batch_names) →
      (∀ s', s' ∈ l1 ++ s :: l2 → ∀ n, n ∈ s'.batch_names → (m.lookup n).isSome = true) →
      ∃ msg, ubAssignAll m i (l1 ++ s :: l2) = .critical msg := by
  induction l1 with
  | nil =>
    intro s l2 m i bn hph hbn hw hpres
    simp only [List.nil_append]
    rcases ubAssignOne_total i s.phenotype s.batch_names m
        (fun n hn => hpres s (List.mem_cons_self s l2) n hn) with hok | hcrit
    · obtain ⟨m2, hm2⟩ := hok
      obtain ⟨b0, hb0⟩ := Option.isSome_iff_exists.mp
        (hpres s (List.mem_cons_self s l2) bn hbn)
      have hm2n : ubAssignOne m i "normal" s.batch_names = .ok m2 := hph ▸ hm2
      obtain ⟨b2, hb2, hn2⟩ := ubAssignOne_normal_assigns i s.batch_names m m2 hm2n bn hbn b0 hb0
      obtain ⟨msg, hc⟩ := ubAssignAll_critical_of_normal_set l2 m2 (i + 1) bn b2 hb2 hn2
        (fun s' hs' n hn => ubAssignOne_pres i s.phenotype s.batch_names m m2 hm2 n
          (hpres s' (List.mem_cons_of_mem s hs') n hn)) hw
      refine ⟨msg, ?_⟩
      unfold ubAssignAll
      rw [hm2]
      simp only [Res.bind]
      exact hc
    · obtain ⟨msg, hc⟩ := hcrit
      refine ⟨msg, ?_⟩
      unfold ubAssignAll
      rw [hc]
      rfl
  | cons s0 l1t ih =>
    intro s l2 m i bn hph hbn hw hpres
    simp only [List.cons_append]
    rcases ubAssignOne_total i s0.phenotype s0.batch_names m
        (fun n hn => hpres s0 (by simp) n hn) with hok | hcrit
    · obtain ⟨m2, hm2⟩ := hok
      obtain ⟨msg, hc⟩ := ih s l2 m2 (i + 1) bn hph hbn hw
        (fun s' hs' n hn => ubAssignOne_pres i s0.phenotype s0.batch_names m m2 hm2 n
          (hpres s' (by simp [List.mem_cons_of_mem]; right; simpa using hs') n hn))
      refine ⟨msg, ?_⟩
      unfold ubAssignAll
      rw [hm2]
      simp only [Res.bind]
      exact hc
    · obtain ⟨msg, hc⟩ := hcrit
      refine ⟨msg, ?_⟩
      unfold ubAssignAll
      rw [hc]
      rfl

/-- The per-entry effect of the flip loop. -/
def flipEntry (p : String × BatchV) : String × BatchV :=
  if p.2.normal.isSome && !p.2.tumor.isSome then
    (p.1, { p.2 with tumor := p.2.normal, normal := none })
  else p

theorem ubFlip_fst (m : List (String × BatchV)) :
    ∀ ph, (ubFlip m ph).1 = m.map flipEntry := by
  induction m with
  | nil => intro ph; rfl
  | cons p rest ih =>
    intro ph
    obtain ⟨bn, b⟩ := p
    unfold ubFlip
    by_cases hc : (b.normal.isSome && !b.tumor.isSome) = true
    · rw [if_pos hc]
      match hn : b.normal with
      | some i =>
        dsimp only
        rw [ih]
        have hfe : flipEntry (bn, b) = (bn, { b with tumor := b.normal, normal := none }) := by
          unfold flipEntry
          rw [if_pos hc]
        rw [List.map_cons, hfe, hn]
      | none =>
        rw [hn] at hc
        simp at hc
    · rw [if_neg hc]
      dsimp only
      rw [ih]
      have hfe : flipEntry (bn, b) = (bn, b) := by
        unfold flipEntry
        rw [if_neg hc]
      rw [List.map_cons, hfe]

theorem ubFlip_ph_cases (m : List (String × BatchV)) :
    ∀ ph j, (ubFlip m ph).2 j = ph j ∨ (ubFlip m ph).2 j = "tumor" := by
  induction m with
  | nil => intro ph j; exact Or.inl rfl
  | cons p rest ih =>
    intro ph j
    obtain ⟨bn, b⟩ := p
    unfold ubFlip
    by_cases hc : (b.normal.isSome && !b.tumor.isSome) = true
    · rw [if_pos hc]
      match hn : b.normal with
      | some i =>
        dsimp only
        rcases ih (fun j2 => if j2 = i then "tumor" else ph j2) j with h | h
        · by_cases hj : j = i
          · rw [h, if_pos hj]
            exact Or.inr rfl
          · rw [h, if_neg hj]
            exact Or.inl rfl
        · exact Or.inr h
      | none =>
        rw [hn] at hc
        simp at hc
    · rw [if_neg hc]
      exact ih ph j

theorem ubFlip_ph_flipped (m : List (String × BatchV)) :
    ∀ ph bn b i, (bn, b) ∈ m → b.normal = some i → b.tumor = none →
      (ubFlip m ph).2 i = "tumor" := by
  induction m with
  | nil =>
    intro ph bn b i hm
    exact absurd hm (List.not_mem_nil _)
  | cons p rest ih =>
    intro ph bn b i hm hn ht
    obtain ⟨bn0, b0⟩ := p
    rcases List.mem_cons.mp hm with he | hr
    · rw [Prod.mk.injEq] at he
      obtain ⟨he1, he2⟩ := he
      subst he1
      subst he2
      unfold ubFlip
      have hc : (b.normal.isSome && !b.tumor.isSome) = true := by
        simp [hn, ht]
      rw [if_pos hc]
      match hn2 : b.normal with
      | some i2 =>
        have hi : i2 = i := by
          rw [hn] at hn2
          injection hn2 with h
          exact h.symm
        subst hi
        dsimp only
        rcases ubFlip_ph_cases rest (fun j => if j = i2 then "tumor" else ph j) i2 with h | h
        · rw [h, if_pos rfl]
        · exact h
      | none =>
        rw [hn] at hn2
        exact Option.noConfusion hn2
    · unfold ubFlip
      by_cases hc : (b0.normal.isSome && !b0.tumor.isSome) = true
      · rw [if_pos hc]
        match hn0 : b0.normal with
        | some i0 =>
          dsimp only
          exact ih _ bn b i hr hn ht
        | none =>
          rw [hn0] at hc
          simp at hc
      · rw [if_neg hc]
        exact ih ph bn b i hr hn ht

theorem ubSetMatches_ok (m : List (String × BatchV))
    (h : ∀ p, p ∈ m → p.2.tumor.isSome = true) : ubSetMatches m = .ok () := by
  unfold ubSetMatches
  rw [if_pos (List.all_eq_true.mpr (fun p hp => h p hp))]

theorem flip_all_tumor (m1 : List (String × BatchV))
    (hset : ∀ p, p ∈ m1 → (p.2.normal.isSome || p.2.tumor.isSome) = true) :
    ∀ p, p ∈ m1.map flipEntry → p.2.tumor.isSome = true := by
  intro p hp
  obtain ⟨q, hq, he⟩ := List.mem_map.mp hp
  subst he
  unfold flipEntry
  by_cases hc : (q.2.normal.isSome && !q.2.tumor.isSome) = true
  · rw [if_pos hc]
    simp only [Bool.and_eq_true] at hc
    exact hc.1
  · rw [if_neg hc]
    rcases Bool.or_eq_true_iff.mp (hset q hq) with hn | ht
    · by_cases ht2 : q.2.tumor.isSome = true
      · exact ht2
      · have ht3 : q.2.tumor.isSome = false := by
          cases h : q.2.tumor.isSome
          · rfl
          · exact absurd h ht2
        exact absurd (by simp [hn, ht3]) hc
    · exact ht

theorem ubAssignAll_all_set (samples : List UBSample) (m1 : List (String × BatchV))
    (hok : ubAssignAll (initBatches samples) 0 samples = .ok m1) :
    ∀ p, p ∈ m1 → (p.2.normal.isSome || p.2.tumor.isSome) = true := by
  intro p hp
  have hkeys : m1.map Prod.fst = (initBatches samples).map Prod.fst :=
    ubAssignAll_keys samples _ 0 m1 hok
  have hinitkeys : (initBatches samples).map Prod.fst =
      dedupFirst ((samples.map (fun s => s.batch_names)).flatten) := by
    unfold initBatches
    rw [List.map_map]
    have hcomp : (Prod.fst ∘ fun bn =>
        (bn, ({ name := bn, normal := none, tumor := none } : BatchV))) = id := rfl
    rw [hcomp, List.map_id]
  have hnd : (m1.map Prod.fst).Nodup := by
    rw [hkeys, hinitkeys]
    exact dedupFirst_nodup _
  have hlk : m1.lookup p.1 = some p.2 := lookup_of_mem_nodup m1 p.1 p.2 hnd hp
  have hkmem : p.1 ∈ (samples.map (fun s => s.batch_names)).flatten := by
    have h1 : p.1 ∈ m1.map Prod.fst := List.mem_map_of_mem Prod.fst hp
    rw [hkeys, hinitkeys] at h1
    exact (mem_dedupFirst _ _).mp h1
  obtain ⟨l, hl, hbn⟩ := List.mem_flatten.mp hkmem
  obtain ⟨s, hsmem, hle⟩ := List.mem_map.mp hl
  have hinit : (initBatches samples).lookup p.1 =
      some { name := p.1, normal := none, tumor := none } := by
    rw [lookup_initBatches, if_pos hkmem]
  obtain ⟨b', hb', hset⟩ := ubAssignAll_assigns samples _ 0 m1 hok s hsmem p.1
    (hle ▸ hbn) _ hinit
  rw [hlk] at hb'
  injection hb' with he2
  rw [he2]
  exact hset

/-- C8: after update_batches returns, every Batch in the returned mapping
has a tumor sample.  Part 1: every entry of a normally-returned mapping
has tumor set.  Part 2: whenever the assignment phase succeeds,
update_batches returns normally (the later phases cannot fail), and a
batch that contained only a normal sample (normal set, tumor empty after
assignment) comes back with that sample moved to the tumor slot, the
normal slot cleared, and the sample re-phenotyped to tumor.  Part 3: two
normal samples sharing a batch name make update_batches exit critically. -/
theorem update_batches_tumor_invariant :
    (∀ samples silent m2 ph2, update_batches samples silent = .ok (m2, ph2) →
       ∀ p, p ∈ m2 → p.2.tumor.isSome = true) ∧
    (∀ samples silent m1, ubAssignAll (initBatches samples) 0 samples = .ok m1 →
       (∃ m2 ph2, update_batches samples silent = .ok (m2, ph2)) ∧
       (∀ bn b i, (bn, b) ∈ m1 → b.normal = some i → b.tumor = none →
         ∀ m2 ph2, update_batches samples silent = .ok (m2, ph2) →
           (bn, ({ name := b.name, normal := none, tumor := some i } : BatchV)) ∈ m2 ∧
           ph2 i = "tumor")) ∧
    (∀ samples silent bn (l1 : List UBSample) s l2 s2 l3,
       samples = l1 ++ s :: (l2 ++ s2 :: l3) → s.phenotype = "normal" →
       s2.phenotype = "normal" → bn ∈ s.batch_names → bn ∈ s2.batch_names →
       ∃ msg, update_batches samples silent = .critical msg) := by
  refine ⟨?_, ?_, ?_⟩
  · intro samples silent m2 ph2 hok p hp
    unfold update_batches at hok
    obtain ⟨m1, h1, h2⟩ := Res.bind_ok _ _ _ hok
    dsimp only at h2
    obtain ⟨u, hu, h3⟩ := Res.bind_ok _ _ _ h2
    injection h3 with h3e
    rw [Prod.mk.injEq] at h3e
    unfold ubSetMatches at hu
    split at hu
    · rename_i hall
      have hm2 : (ubFlip m1 (fun i => ((samples.get? i).map UBSample.phenotype).getD "")).1 = m2 :=
        h3e.1
      rw [← hm2] at hp
      exact List.all_eq_true.mp hall p hp
    · exact Res.noConfusion hu
  · intro samples silent m1 hok
    have hall := ubAssignAll_all_set samples m1 hok
    have hflipm : (ubFlip m1 (fun i => ((samples.get? i).map UBSample.phenotype).getD "")).1 =
        m1.map flipEntry := ubFlip_fst m1 _
    have hmatch : ubSetMatches (ubFlip m1
        (fun i => ((samples.get? i).map UBSample.phenotype).getD "")).1 = .ok () := by
      rw [hflipm]
      exact ubSetMatches_ok _ (flip_all_tumor m1 hall)
    have hrun : update_batches samples silent =
        .ok ((ubFlip m1 (fun i => ((samples.get? i).map UBSample.phenotype).getD "")).1,
             (ubFlip m1 (fun i => ((samples.get? i).map UBSample.phenotype).getD "")).2) := by
      unfold update_batches
      rw [hok]
      simp only [Res.bind]
      rw [hmatch]
    refine ⟨⟨_, _, hrun⟩, ?_⟩
    intro bn b i hm hn ht m2 ph2 hok2
    rw [hrun] at hok2
    injection hok2 with he
    rw [Prod.mk.injEq] at he
    constructor
    · rw [← he.1, hflipm]
      have hfe : flipEntry (bn, b) =
          (bn, ({ name := b.name, normal := none, tumor := some i } : BatchV)) := by
        unfold flipEntry
        rw [if_pos (by simp [hn, ht])]
        rw [hn]
      rw [← hfe]
      exact List.mem_map_of_mem flipEntry hm
    · rw [← he.2]
      exact ubFlip_ph_flipped m1 _ bn b i hm hn ht
  · intro samples silent bn l1 s l2 s2 l3 hsplit hph hph2 hbn hbn2
    have hpres : ∀ s', s' ∈ samples → ∀ n, n ∈ s'.batch_names →
        ((initBatches samples).lookup n).isSome = true := by
      intro s' hs' n hn
      rw [lookup_initBatches, if_pos]
      · rfl
      · exact List.mem_flatten.mpr ⟨s'.batch_names, List.mem_map_of_mem _ hs', hn⟩
    obtain ⟨msg, hc⟩ := ubAssignAll_two_normals_critical l1 s (l2 ++ s2 :: l3)
      (initBatches samples) 0 bn hph hbn
      ⟨s2, by simp, hph2, hbn2⟩
      (by rw [← hsplit]; exact hpres)
    refine ⟨msg, ?_⟩
    unfold update_batches
    rw [hsplit] at hc ⊢
    rw [hc]
    rfl

/-- Witness for C8 at a one-sample project: a batch holding only a normal
sample comes back with the sample as tumor, the normal slot cleared, and
the phenotype map showing tumor. -/
theorem update_batches_tumor_invariant_witness :
    ∃ m2 ph2,
      update_batches [{ name := "n1", phenotype := "normal", batch_names := ["b1"] }] false =
        .ok (m2, ph2) ∧
      ("b1", ({ name := "b1", normal := none, tumor := some 0 } : BatchV)) ∈ m2 ∧
      ph2 0 = "tumor" := by
  have h := update_batches_tumor_invariant
  have hok : ubAssignAll
      (initBatches [{ name := "n1", phenotype := "normal", batch_names := ["b1"] }]) 0
      [{ name := "n1", phenotype := "normal", batch_names := ["b1"] }] =
      .ok [("b1", ({ name := "b1", normal := some 0, tumor := none } : BatchV))] := by
    rfl
  obtain ⟨⟨m2, ph2, hrun⟩, hflip⟩ := h.2.1 _ false _ hok
  obtain ⟨hmem, hph⟩ := hflip "b1" { name := "b1", normal := some 0, tumor := none } 0
    (by simp) rfl rfl m2 ph2 hrun
  exact ⟨m2, ph2, hrun, hmem, hph⟩

/-! Sample loading (bcbio.py, BcbioSample.parse_sample_ids,
load_from_sample_info and _set_name_and_paths). -/

/-- Python value found under metadata.batch in a YAML details entry:
absent/None, a string, an int or float (pynum carries its str()
rendering), or a list of strings. -/
inductive PyBatchVal where
  | pynone
  | pystr : String → PyBatchVal
  | pynum : String → PyBatchVal
  | pylist : List String → PyBatchVal
deriving Repr, DecidableEq

/-- Python value under algorithm.variantcaller: absent/None, a string, a
list of strings, or a dict with optional germline and somatic entries,
each a string or a list. -/
inductive PyVCVal where
  | vnone
  | vstr : String → PyVCVal
  | vlist : List String → PyVCVal
  | vdict : Option (Sum String (List String)) → Option (Sum String (List String)) → PyVCVal
deriving Repr, DecidableEq

/-- Value of the variantcallers variable while _set_variant_files runs:
None (from a dict lookup), a string, or a list. -/
inductive PyVCState where
  | vnone
  | vstr : String → PyVCState
  | vlist : List String → PyVCState
deriving Repr, DecidableEq

/-- Python str.replace with the one-character pattern and replacement used
throughout the loaders: a character map turning every dot into an
underscore (46 and 95 are the code points of dot and underscore). -/
def replaceDot (s : String) : String :=
  String.mk (s.data.map (fun c => if c = Char.ofNat 46 then Char.ofNat 95 else c))

/-- Fields of one YAML details entry read by the loaders.  Scalar YAML
values carry their str() rendering; optional fields are absent keys. -/
structure SampleInfo where
  description : String
  description_original : Option String
  batch : PyBatchVal
  phenotype : Option String
  genome_build : String
  variant_regions : Option String
  sv_regions : Option String
  coverage : Option String
  analysis : String
  variantcaller : PyVCVal
  ensembleKey : Bool
  files : Sum String (List String)
deriving Repr, DecidableEq

/-- Translation of BcbioSample.parse_sample_ids (bcbio.py lines 50-62):
the description with dots replaced, and the batch names (numbers
stringified, a single string wrapped in a list, and a non-empty list
filtered of falsy entries and dot-replaced). -/
def parse_sample_ids (si : SampleInfo) : String × Option (List String) :=
  let description := replaceDot si.description
  let batch_names : Option (List String) :=
    match si.batch with
    | .pynone => none
    | .pystr s => some [s]
    | .pynum s => some [s]
    | .pylist l => some l
  let batch_names : Option (List String) :=
    match batch_names with
    | some l => if l ≠ [] then some ((l.filter (fun b => b ≠ "")).map replaceDot) else some l
    | none => none
  (description, batch_names)

/-- Python len() of the variantcallers value (TypeError on None). -/
def pyLen : PyVCState → Res Nat
  | .vnone => .raised "TypeError"
  | .vstr s => .ok s.length
  | .vlist l => .ok l.length

/-- Python membership c in variantcallers: substring test on a string,
element test on a list, TypeError on None. -/
def pyIn (c : String) : PyVCState → Res Bool
  | .vnone => .raised "TypeError"
  | .vstr s => .ok (pyContains s c)
  | .vlist l => .ok (l.contains c)

/-- Python variantcallers[0]: first character of a string, head of a list,
IndexError when empty, TypeError on None. -/
def pyIndex0 : PyVCState → Res String
  | .vnone => .raised "TypeError"
  | .vstr s =>
    match s.data with
    | [] => .raised "IndexError"
    | c :: _ => .ok (String.mk [c])
  | .vlist l =>
    match l with
    | [] => .raised "IndexError"
    | x :: _ => .ok x

/-- Translation of CALLER_PRIORITY (bcbio.py line 17). -/
def CALLER_PRIORITY : List String := ["ensemble", "strelka2", "vardict", "gatk-haplotype"]

/-- The generator consumed by next() in _set_variant_files: the first
priority caller contained in the variantcallers value. -/
def firstPriorityCaller (vc : PyVCState) : List String → Res (Option String)
  | [] => .ok none
  | c :: rest =>
    Res.bind (pyIn c vc) (fun b => if b then .ok (some c) else firstPriorityCaller vc rest)

/-- Translation of BcbioSample._set_variant_files (bcbio.py lines 221-241):
resolve the variantcallers value through the dict/str/list cases, prepend
ensemble when requested and the value has more than one entry, and select
the project caller (the next() default argument variantcallers[0] is
evaluated eagerly, before the generator).  Returns the final
variantcallers value and the selected caller, which the Python code stores
on the sample and the project; neither is read by the name or path
logic. -/
def set_variant_files (variantcallers_data : PyVCVal) (phenotype : String) (ensemble : Bool) :
    Res (PyVCState × String) :=
  let vc0 : PyVCState := .vlist []
  let vc1 : PyVCState :=
    match variantcallers_data with
    | .vdict germ som =>
      if germ.isSome && phenotype == "normal" then
        match germ with
        | some (Sum.inl s) => .vstr s
        | some (Sum.inr l) => .vlist l
        | none => .vnone
      else
        match som with
        | some (Sum.inl s) => .vstr s
        | some (Sum.inr l) => .vlist l
        | none => .vnone
    | _ => vc0
  let vc2 : PyVCState :=
    match variantcallers_data with
    | .vstr s => .vlist [s]
    | .vlist l => .vlist l
    | _ => vc1
  Res.bind
    (if ensemble then Res.bind (pyLen vc2) (fun n => .ok (decide (n > 1))) else .ok false)
    (fun bigger =>
      Res.bind
        (if bigger then
          match vc2 with
          | .vlist l => .ok (PyVCState.vlist ("ensemble" :: l))
          | .vstr _ => .raised "TypeError"
          | .vnone => .raised "TypeError"
        else .ok vc2)
        (fun vc3 =>
          Res.bind (pyIndex0 vc3) (fun dflt =>
            Res.bind (firstPriorityCaller vc3 CALLER_PRIORITY) (fun found =>
              .ok (vc3, found.getD dflt)))))

/-- Python `x or y` on two optional strings (None and the empty string are
falsy). -/
def pyOrOpt (x y : Option String) : Option String :=
  match x with
  | none => y
  | some s => if s = "" then y else x

/-- Translation of BcbioProject.config_path (bcbio.py lines 575-582): a
falsy value is returned unchanged; otherwise the value resolved against
the config dir is returned when it exists, the raw value otherwise. -/
def BcbioProject.config_path (fs : FS) (p : BcbioProject) (val : Option String) : Option String :=
  match val with
  | none => none
  | some v =>
    if v = "" then some v
    else
      let full_path := adjust_path (pyJoin p.config_dir v)
      if fs.isfile full_path || fs.isdir full_path then some full_path else some v

/-- Lower-casing of a string, stated over its character list. -/
def pyLower (s : String) : String := String.mk (s.data.map Char.toLower)

/-- Translation of BcbioSample._set_name_and_paths (bcbio.py lines
190-219) together with the sample fields it mutates: replace dots in the
name, verify the sample directory (critical when missing and not silent,
False - here none - when silent), locate the BAM, then either look for
RNA-seq counts or resolve variant callers.  The variantcallers value and
the project caller chosen by _set_variant_files are returned by
set_variant_files and dropped here: the Python code stores them in fields
never read by the name or path logic. -/
def set_name_and_paths (fs : FS) (p : BcbioProject) (s : BcbioSample) (name : String)
    (variantcallers_data : PyVCVal) (ensemble : Bool) (silent : Bool) :
    Res (Option BcbioSample) :=
  let raw_name := name
  let name2 := replaceDot raw_name
  match verify_dir fs (some (pyJoin p.final_dir name2)) with
  | none =>
    if !silent then
      .critical "Sample specified in bcbio YAML is not found in the final directory"
    else .ok none
  | some d =>
    let s1 := { s with raw_name := some raw_name, name := some name2, dirpath := some d }
    Res.bind (BcbioSample.find_bam fs p s1 silent) (fun bam =>
      let s2 := { s1 with bam := bam }
      if s2.is_rnaseq then
        match s2.get_name_for_files with
        | none => .raised "TypeError"
        | some nf =>
          let gene_counts := adjust_path (pyJoin d (nf ++ "-ready.counts"))
          if fs.isfile gene_counts && (verify_file fs gene_counts).isSome then
            .ok (some { s2 with counts_file := some gene_counts })
          else .ok (some s2)
      else
        if (match variantcallers_data with
            | .vnone => false
            | .vstr vs => vs ≠ ""
            | .vlist l => l ≠ []
            | .vdict g so => g.isSome || so.isSome) then
          Res.bind (set_variant_files variantcallers_data s2.phenotype ensemble)
            (fun _ => .ok (some s2))
        else .ok (some s2))

/-- Truthiness of an optional string list (None and the empty list are
falsy). -/
def pyTruthyOptList (x : Option (List String)) : Bool :=
  match x with
  | none => false
  | some l => l ≠ []

/-- Translation of BcbioSample.load_from_sample_info (bcbio.py lines
64-158).  The batch names are normalized (TypeError when the metadata has
no batch entry, as the unguarded list comprehension at line 75 iterates
None), exclusion and inclusion filters may drop the sample (None), the
BcbioSample object is created (BaseSample from ngs_utils/Sample.py, not
under src/, is modelled from the spec as initializing name to None), the
default batch name falls back to old_name-batch (concatenating with the
still-unset name raises TypeError when there is no description_original),
multiple batches for a non-normal sample hit the critical call at line
121, whose message concatenates the still-None s.name and therefore
raises TypeError first; the bed files are resolved through config_path
(the az fallback import fails and is skipped), and the sample is
completed by _set_name_and_paths.  min_allele_fraction is a float
conversion never read by name or path logic and is not modelled. -/
def load_from_sample_info (fs : FS) (p : BcbioProject) (si : SampleInfo)
    (exclude_samples include_samples : Option (List String)) (extra_batches : List String)
    (silent : Bool) : Res (Option BcbioSample) :=
  let description := replaceDot si.description
  let batch0 : Option (List String) :=
    match si.batch with
    | .pynone => none
    | .pystr s => some [s]
    | .pynum s => some [s]
    | .pylist l => some l
  match batch0 with
  | none => .raised "TypeError"
  | some bl =>
    let batch_names := (bl.filter (fun b => b ≠ "")).map replaceDot
    if pyTruthyOptList exclude_samples && (exclude_samples.getD []).contains description then
      .ok none
    else
      let step2 : Option (List String) :=
        if pyTruthyOptList exclude_samples && batch_names ≠ [] then
          let filtered := batch_names.filter (fun b => !(exclude_samples.getD []).contains b)
          if filtered = [] then none else some filtered
        else some batch_names
      match step2 with
      | none => .ok none
      | some batch_names2 =>
        let step3 : Option (List String) :=
          if pyTruthyOptList include_samples = false then some batch_names2
          else if (include_samples.getD []).contains description then some batch_names2
          else if batch_names2 ≠ [] then
            let incl := batch_names2.filter (fun b => (include_samples.getD []).contains b)
            let extr := batch_names2.filter
              (fun b => extra_batches ≠ [] && extra_batches.contains b)
            let incl2 := incl ++ extr
            if incl2 ≠ [] then some incl2 else none
          else some batch_names2
        match step3 with
        | none => .ok none
        | some batch_names3 =>
          let old_name := si.description_original.map replaceDot
          let phenotype := si.phenotype.getD "tumor"
          let batchRes : Res (List String) :=
            if batch_names3 = [] then
              match (match old_name with
                     | some o => if o = "" then none else some o
                     | none => none) with
              | some o => .ok [o ++ "-batch"]
              | none => .raised "TypeError"
            else .ok batch_names3
          Res.bind batchRes (fun batch_names4 =>
            if decide (batch_names4.length > 1) && phenotype != "normal" then
              .raised "TypeError"
            else
              let variant_regions_bed := p.config_path fs si.variant_regions
              let sv_regions_bed := pyOrOpt (p.config_path fs si.sv_regions) variant_regions_bed
              let coverage_bed := pyOrOpt (p.config_path fs si.coverage) sv_regions_bed
              let is_rnaseq := pyContains (pyLower si.analysis) "rna"
              let coverage_interval := if variant_regions_bed.isNone then "genome" else "regional"
              let is_wgs := coverage_interval == "genome"
              let s1 : BcbioSample :=
                { name := none, old_name := old_name, raw_name := none, dirpath := none,
                  phenotype := phenotype, batch := none, batch_names := batch_names4,
                  bam := none, genome_build := si.genome_build,
                  variant_regions_bed := variant_regions_bed,
                  sv_regions_bed := sv_regions_bed, coverage_bed := coverage_bed,
                  is_rnaseq := is_rnaseq, coverage_interval := coverage_interval,
                  is_wgs := is_wgs, counts_file := none, files := si.files }
              set_name_and_paths fs p s1 description si.variantcaller si.ensembleKey silent)

/-- Check that a string contains no dot (code point 46). -/
def noDotStr (s : String) : Bool := s.data.all (fun c => c != Char.ofNat 46)

theorem noDot_replaceDot (s : String) : noDotStr (replaceDot s) = true := by
  unfold noDotStr replaceDot
  rw [List.all_eq_true]
  intro c hc
  obtain ⟨c0, _, he⟩ := List.mem_map.mp hc
  subst he
  by_cases h : c0 = Char.ofNat 46 <;> simp [h]

theorem noDot_append (a b : String) (ha : noDotStr a = true) (hb : noDotStr b = true) :
    noDotStr (a ++ b) = true := by
  unfold noDotStr at *
  have hd : (a ++ b).data = a.data ++ b.data := by cases a; cases b; rfl
  rw [hd, List.all_append, ha, hb]
  rfl

theorem set_name_and_paths_fields (fs : FS) (p : BcbioProject) (s : BcbioSample)
    (name : String) (vdata : PyVCVal) (ens silent : Bool) (s' : BcbioSample)
    (hok : set_name_and_paths fs p s name vdata ens silent = .ok (some s')) :
    s'.name = some (replaceDot name) ∧ s'.old_name = s.old_name ∧
    s'.batch_names = s.batch_names := by
  unfold set_name_and_paths at hok
  simp only [] at hok
  split at hok
  · split at hok
    · exact Res.noConfusion hok
    · injection hok with h
      exact Option.noConfusion h
  · obtain ⟨bam, hbam, h2⟩ := Res.bind_ok _ _ _ hok
    split at h2
    · split at h2
      · exact Res.noConfusion h2
      · split at h2
        · injection h2 with h3
          injection h3 with h4
          rw [← h4]
          exact ⟨rfl, rfl, rfl⟩
        · injection h2 with h3
          injection h3 with h4
          rw [← h4]
          exact ⟨rfl, rfl, rfl⟩
    · split at h2
      · obtain ⟨vcr, hvcr, h3⟩ := Res.bind_ok _ _ _ h2
        injection h3 with h4
        injection h4 with h5
        rw [← h5]
        exact ⟨rfl, rfl, rfl⟩
      · injection h2 with h3
        injection h3 with h4
        rw [← h4]
        exact ⟨rfl, rfl, rfl⟩

/-- C10: every sample name, old name and batch name produced by
parse_sample_ids, load_from_sample_info and _set_name_and_paths contains
no dot: every dot in the YAML description, description_original and batch
identifiers is replaced by an underscore before being stored on the
sample or used to build file paths. -/
theorem loaded_names_have_no_dots :
    (∀ si, noDotStr (parse_sample_ids si).1 = true ∧
       (∀ bs, (parse_sample_ids si).2 = some bs → ∀ b, b ∈ bs → noDotStr b = true)) ∧
    (∀ fs p s name vdata ens silent s',
       set_name_and_paths fs p s name vdata ens silent = .ok (some s') →
       s'.name = some (replaceDot name) ∧ noDotStr (replaceDot name) = true) ∧
    (∀ fs p si ex inc extra silent s',
       load_from_sample_info fs p si ex inc extra silent = .ok (some s') →
       (∀ n, s'.name = some n → noDotStr n = true) ∧
       (∀ o, s'.old_name = some o → noDotStr o = true) ∧
       (∀ b, b ∈ s'.batch_names → noDotStr b = true)) := by
  refine ⟨?_, ?_, ?_⟩
  · intro si
    constructor
    · exact noDot_replaceDot si.description
    · intro bs hbs b hb
      unfold parse_sample_ids at hbs
      simp only [] at hbs
      split at hbs
      · rename_i l hl
        split at hbs
        · injection hbs with h
          subst h
          obtain ⟨b0, _, he⟩ := List.mem_map.mp hb
          subst he
          exact noDot_replaceDot b0
        · rename_i hnil
          simp only [ne_eq, Decidable.not_not] at hnil
          injection hbs with h
          subst h
          rw [hnil] at hb
          exact absurd hb (List.not_mem_nil b)
      · exact Option.noConfusion hbs
  · intro fs p s name vdata ens silent s' hok
    exact ⟨(set_name_and_paths_fields fs p s name vdata ens silent s' hok).1,
      noDot_replaceDot name⟩
  · intro fs p si ex inc extra silent s' hok
    unfold load_from_sample_info at hok
    simp only [] at hok
    split at hok
    · exact Res.noConfusion hok
    · rename_i bl hbl
      split at hok
      · injection hok with h
        exact Option.noConfusion h
      · have hB : ∀ b, b ∈ (bl.filter (fun b => b ≠ "")).map replaceDot →
            noDotStr b = true := by
          intro b hb
          obtain ⟨b0, _, he⟩ := List.mem_map.mp hb
          subst he
          exact noDot_replaceDot b0
        split at hok
        · injection hok with h
          exact Option.noConfusion h
        · rename_i bn2 hbn2
          have hB2 : ∀ b, b ∈ bn2 → noDotStr b = true := by
            intro b hb
            revert hbn2
            split
            · split
              · intro h
                exact Option.noConfusion h
              · intro h
                injection h with h2
                subst h2
                exact hB b (List.mem_filter.mp hb).1
            · intro h
              injection h with h2
              subst h2
              exact hB b hb
          split at hok
          · injection hok with h
            exact Option.noConfusion h
          · rename_i bn3 hbn3
            have hB3 : ∀ b, b ∈ bn3 → noDotStr b = true := by
              intro b hb
              revert hbn3
              split
              · intro h
                injection h with h2
                subst h2
                exact hB2 b hb
              · split
                · intro h
                  injection h with h2
                  subst h2
                  exact hB2 b hb
                · split
                  · split
                    · intro h
                      injection h with h2
                      subst h2
                      rcases List.mem_append.mp hb with h3 | h3
                      · exact hB2 b (List.mem_filter.mp h3).1
                      · exact hB2 b (List.mem_filter.mp h3).1
                    · intro h
                      exact Option.noConfusion h
                  · intro h
                    injection h with h2
                    subst h2
                    exact hB2 b hb
            obtain ⟨bn4, hbr, hrest⟩ := Res.bind_ok _ _ _ hok
            have hB4 : ∀ b, b ∈ bn4 → noDotStr b = true := by
              intro b hb
              revert hbr
              split
              · split
                · rename_i o ho
                  intro h
                  injection h with h2
                  subst h2
                  have h3 := List.mem_singleton.mp hb
                  subst h3
                  have hod : noDotStr o = true := by
                    revert ho
                    split
                    · rename_i o0 ho0
                      split
                      · intro h5
                        exact Option.noConfusion h5
                      · intro h5
                        injection h5 with h6
                        subst h6
                        revert ho0
                        cases horig : si.description_original with
                        | none => intro h7; exact Option.noConfusion h7
                        | some orig =>
                          intro h7
                          injection h7 with h8
                          subst h8
                          exact noDot_replaceDot orig
                    · intro h5
                      exact Option.noConfusion h5
                  exact noDot_append o "-batch" hod (by decide)
                · intro h
                  exact Res.noConfusion h
              · intro h
                injection h with h2
                subst h2
                exact hB3 b hb
            split at hrest
            · exact Res.noConfusion hrest
            · have hfields := set_name_and_paths_fields fs p _ _ _ _ _ _ hrest
              refine ⟨?_, ?_, ?_⟩
              · intro n hn
                rw [hfields.1] at hn
                injection hn with hn2
                subst hn2
                exact noDot_replaceDot (replaceDot si.description)
              · intro o hoo
                rw [hfields.2.1] at hoo
                dsimp only at hoo
                cases horig : si.description_original with
                | none =>
                  rw [horig] at hoo
                  exact Option.noConfusion hoo
                | some orig =>
                  rw [horig] at hoo
                  injection hoo with ho2
                  subst ho2
                  exact noDot_replaceDot orig
              · intro b hb
                rw [hfields.2.2] at hb
                exact hB4 b hb

/-- The sample produced by the C10 witness run. -/
def witnessLoadedSample : BcbioSample :=
  { name := some "S_1", old_name := none, raw_name := some "S_1",
    dirpath := some "/proj/final/S_1", phenotype := "tumor", batch := none,
    batch_names := ["B_1"], bam := none, genome_build := "hg38",
    variant_regions_bed := none, sv_regions_bed := none, coverage_bed := none,
    is_rnaseq := true, coverage_interval := "genome", is_wgs := true,
    counts_file := none, files := Sum.inl "/data/s.fq" }

/-- Witness for C10: a sample and batch with dotted YAML identifiers load
into dot-free names. -/
theorem loaded_names_have_no_dots_witness :
    let fs : FS := { isfile := fun _ => false, isdir := fun q => q = "/proj/final/S_1" }
    let p : BcbioProject :=
      { config_dir := "/proj/config", final_dir := "/proj/final",
        date_dir := "/proj/final/2020-01-01_project", work_dir := "/proj/work",
        var_dir := "/proj/final/2020-01-01_project/var",
        raw_var_dir := "/proj/final/2020-01-01_project/var/raw",
        somatic_caller := "ensemble", germline_caller := "ensemble" }
    let si : SampleInfo :=
      { description := "S.1", description_original := none, batch := .pystr "B.1",
        phenotype := some "tumor", genome_build := "hg38", variant_regions := none,
        sv_regions := none, coverage := none, analysis := "RNA-seq",
        variantcaller := .vnone, ensembleKey := false, files := Sum.inl "/data/s.fq" }
    ∃ s', load_from_sample_info fs p si none none [] false = .ok (some s') ∧
      (∀ n, s'.name = some n → noDotStr n = true) ∧
      (∀ o, s'.old_name = some o → noDotStr o = true) ∧
      (∀ b, b ∈ s'.batch_names → noDotStr b = true) := by
  intro fs p si
  have hload : load_from_sample_info fs p si none none [] false =
      .ok (some witnessLoadedSample) := by decide
  exact ⟨_, hload, loaded_names_have_no_dots.2.2 fs p si none none [] false _ hload⟩

end NgsUtils